import Mathlib

/-!
# Snake game core of `example/snake-game/main.go`

A shallow embedding of the simulation core of the snake example: the geometry
primitives (`Point`, `Rect`), the linear overlap scans over a `List` of points,
food placement and the per-frame `draw` routine; and of the button sets of
`event.go` (namespace `P5`).

Conventions of the embedding:

* Go's `float64` coordinates are idealised as exact rationals (`ℚ`): no
  rounding, no NaN and no infinities. The one property that depends on the
  special values, the ordering `Min ≤ Max` of the constructed rectangles, is
  stated over the `float64` values of namespace `SnakeGame.IEEE` instead, with
  the rounding of each operation as a parameter.
* Go's `int` results of the scans are `Int` (`-1` for "not found").
* Calls into the rendering back end (`p5.Fill`, `p5.Square`, `p5.Ellipse`,
  `fmt.Println`) have no effect on the simulation state and are left out.
-/

namespace P5

/-! ## Mouse buttons of `event.go` -/

/-- A set of mouse buttons (`type Buttons uint8`), given by the number whose
bits are the buttons; a `uint8` is a number below 256, and `&` on two of them
stays below 256. -/
abbrev Buttons := ℕ

/-- The test `func (b Buttons) Contain(buttons Buttons) bool`, that is
`b&buttons == buttons`. -/
def Buttons.Contain (b buttons : Buttons) : Bool :=
  (b &&& buttons) == buttons

/-- Left button, `1 << 0`. -/
def ButtonLeft : Buttons := 1 <<< 0

/-- Right button, `1 << 1`. -/
def ButtonRight : Buttons := 1 <<< 1

/-- Middle button, `1 << 2`. -/
def ButtonMiddle : Buttons := 1 <<< 2

end P5

namespace SnakeGame

/-! ## Geometry -/

/-- A 2D position (`type Point struct { X, Y float64 }`). -/
structure Point where
  X : ℚ
  Y : ℚ
  deriving DecidableEq, Repr

/-- An axis-aligned box (`type Rect struct { Min, Max Point }`). -/
structure Rect where
  Min : Point
  Max : Point
  deriving DecidableEq, Repr

/-- Translation of a point: `func (p Point) Move(x, y float64) Point`. -/
def Point.Move (p : Point) (x y : ℚ) : Point :=
  { X := p.X + x, Y := p.Y + y }

/-- Rectangle of width `w` and height `h` centred on `p`:
`func (p Point) toRect(w, h float64) Rect`. -/
def Point.toRect (p : Point) (w h : ℚ) : Rect :=
  let w := w / 2
  let h := h / 2
  { Min := { X := p.X - w, Y := p.Y - h }
    Max := { X := p.X + w, Y := p.Y + h } }

/-- Square of edge `sz` centred on `p`: `func (p Point) toSquare(sz float64) Rect`. -/
def Point.toSquare (p : Point) (sz : ℚ) : Rect :=
  let cz := sz / 2
  { Min := { X := p.X - cz, Y := p.Y - cz }
    Max := { X := p.X + cz, Y := p.Y + cz } }

/-- Translation of a rectangle: `func (r Rect) Move(x, y float64) Rect`. -/
def Rect.Move (r : Rect) (x y : ℚ) : Rect :=
  { Min := { X := r.Min.X + x, Y := r.Min.Y + y }
    Max := { X := r.Max.X + x, Y := r.Max.Y + y } }

/-- Half-open containment test: `func (r Rect) Contains(p Point) bool`. -/
def Rect.Contains (r : Rect) (p : Point) : Bool :=
  decide (p.X ≥ r.Min.X) && decide (p.X < r.Max.X) &&
    decide (p.Y ≥ r.Min.Y) && decide (p.Y < r.Max.Y)

/-- Overlap test of two boxes: `func (r Rect) Overlaps(r2 Rect) bool`. -/
def Rect.Overlaps (r r2 : Rect) : Bool :=
  if r.Max.X ≤ r2.Min.X ∨ r2.Max.X ≤ r.Min.X then
    false
  else if r.Max.Y ≤ r2.Min.Y ∨ r2.Max.Y ≤ r.Min.Y then
    false
  else
    true

/-! ## Overlap scans over a list of points (`type List []Point`) -/

/-- The loop of `List.OverlapsRect`, started at index `i`: skip the `(0,0)`
entries, return the index of the first cell whose square overlaps `r`, and `-1`
when the list is exhausted. -/
def List.scanRect (r : Rect) (sz : ℚ) : List Point → Nat → Int
  | [], _ => -1
  | c :: cs, i =>
    if c.X = 0 ∧ c.Y = 0 then
      List.scanRect r sz cs (i + 1)
    else if (c.toSquare sz).Overlaps r then
      (i : Int)
    else
      List.scanRect r sz cs (i + 1)

/-- Index of the first placed cell hit by `r`:
`func (l List) OverlapsRect(r Rect, sz float64) int`. -/
def List.OverlapsRect (l : List Point) (r : Rect) (sz : ℚ) : Int :=
  List.scanRect r sz l 0

/-- Index of the first placed cell hit by the square of `p`:
`func (l List) Overlaps(p Point, sz float64) int`. The loop body is the same as
that of `OverlapsRect`, run against `r := p.toSquare(sz)`. -/
def List.Overlaps (l : List Point) (p : Point) (sz : ℚ) : Int :=
  let r := p.toSquare sz
  List.scanRect r sz l 0

/-! ## Simulation state -/

/-- Direction of travel (`type Dir int` with its six constants). -/
inductive Dir where
  | None
  | Up
  | Down
  | Left
  | Right
  | Die
  deriving DecidableEq, Repr

/-- The package-level variables that `draw` reads and writes. -/
structure State where
  size : ℚ
  speed : ℚ
  snake : List Point
  food : List Point
  dir : Dir
  cur : Point
  score : Int
  max : Int
  deriving DecidableEq, Repr

/-- What one frame reads from its collaborators: the key state and window size
of `p5.Event`, and the successive results of `rand.Float64()` during the
frame (`rand n` is the result of call number `n`). -/
structure Event where
  Pressed : Bool
  Name : String
  Width : ℚ
  Height : ℚ
  rand : ℕ → ℚ

/-- Two's-complement wrap of an integer result into Go's `int` (64 bits). -/
def wrapInt (x : Int) : Int :=
  (x + 2 ^ 63) % 2 ^ 64 - 2 ^ 63

/-! ## The frame routine `draw`, phase by phase -/

/-- Key handling, the `if p5.Event.Key.Pressed { switch ... }` block of `draw`. -/
def keys (ev : Event) (s : State) : State :=
  if ev.Pressed then
    if ev.Name = "↑" then { s with dir := Dir.Up }
    else if ev.Name = "↓" then { s with dir := Dir.Down }
    else if ev.Name = "←" then { s with dir := Dir.Left }
    else if ev.Name = "→" then { s with dir := Dir.Right }
    else if ev.Name = "-" ∨ ev.Name = "_" then
      if s.speed > 1 then { s with speed := s.speed - 1 } else s
    else if ev.Name = "+" ∨ ev.Name = "=" then { s with speed := s.speed + 1 }
    else if ev.Name = "F" then { s with food := s.food ++ [{ X := 0, Y := 0 }] }
    else s
  else s

/-- Head movement, the `switch dir` block of `draw`: the new head position and
the head rectangle used by the collision tests. With no movement direction the
rectangle keeps its zero value (`var head Rect`). -/
def move (ev : Event) (s : State) : State × Rect :=
  match s.dir with
  | Dir.Up =>
    let y := s.cur.Y - s.speed
    let y := if y < 0 then ev.Height else y
    let cur : Point := { X := s.cur.X, Y := y }
    ({ s with cur := cur }, (cur.toRect s.size 1).Move 0 (-s.size / 2))
  | Dir.Down =>
    let y := s.cur.Y + s.speed
    let y := if y > ev.Height then 0 else y
    let cur : Point := { X := s.cur.X, Y := y }
    ({ s with cur := cur }, (cur.toRect s.size 1).Move 0 (s.size / 2))
  | Dir.Left =>
    let x := s.cur.X - s.speed
    let x := if x < 0 then ev.Width else x
    let cur : Point := { X := x, Y := s.cur.Y }
    ({ s with cur := cur }, (cur.toRect 1 s.size).Move (-s.size / 2) 0)
  | Dir.Right =>
    let x := s.cur.X + s.speed
    let x := if x > ev.Width then 0 else x
    let cur : Point := { X := x, Y := s.cur.Y }
    ({ s with cur := cur }, (cur.toRect 1 s.size).Move (s.size / 2) 0)
  | _ => (s, { Min := { X := 0, Y := 0 }, Max := { X := 0, Y := 0 } })

/-- Food pickup, the `if i := food.OverlapsRect(head, size); i >= 0` block: the
state after it and the flag `eat`. -/
def eatFood (s : State) (head : Rect) : State × Bool :=
  let i := List.OverlapsRect s.food head s.size
  if i ≥ 0 then
    let score := wrapInt (s.score + 1)
    ({ s with
        food := s.food.set i.toNat { X := 0, Y := 0 }
        score := score
        max := if score > s.max then score else s.max }, true)
  else
    (s, false)

/-- Self collision, the `if i := snake.OverlapsRect(head, size); i >= 0` block. -/
def selfHit (s : State) (head : Rect) : State :=
  if List.OverlapsRect s.snake head s.size ≥ 0 then
    { s with dir := Dir.Die, score := 0 }
  else
    s

/-- The inner retry loop of `makefood` with `fuel` iterations left: `n` counts
the calls of `rand.Float64()` made so far and `c` is the current value of the
loop variable. Returns the value of `c` when the loop ends and the new count. -/
def tryPlace (ev : Event) (size : ℚ) (food snake : List Point) :
    ℕ → ℕ → Point → Point × ℕ
  | 0, n, c => (c, n)
  | fuel + 1, n, _ =>
    let c : Point :=
      { X := size + ev.rand n * (ev.Width - size - size)
        Y := size + ev.rand (n + 1) * (ev.Height - size - size) }
    if List.Overlaps food c size < 0 ∧ List.Overlaps snake c size < 0 then
      (c, n + 2)
    else
      tryPlace ev size food snake fuel (n + 2) c

/-- One iteration of the outer loop of `makefood`, for slot `i`. -/
def makefoodStep (ev : Event) (size : ℚ) (snake : List Point)
    (acc : List Point × ℕ) (i : ℕ) : List Point × ℕ :=
  match acc.1[i]? with
  | some c =>
    if c.X = 0 ∧ c.Y = 0 then
      let res := tryPlace ev size acc.1 snake 1000 acc.2 c
      (acc.1.set i res.1, res.2)
    else
      acc
  | none => acc

/-- Refill of the empty food slots: `func makefood()`. -/
def makefood (ev : Event) (s : State) : State :=
  { s with
    food := ((List.range s.food.length).foldl (makefoodStep ev s.size s.snake) (s.food, 0)).1 }

/-- The shifting loop `for i := 1; i < len(snake); i++ { snake[i-1] = snake[i] }`. -/
def shift (snake : List Point) : List Point :=
  (List.range' 1 (snake.length - 1)).foldl
    (fun a i => a.set (i - 1) (a.getD i { X := 0, Y := 0 })) snake

/-- Body update, the `if eat { ... } else { ... }` block. Writing
`snake[len(snake)-1]` into an empty body is an index out of range: `none`. -/
def updateBody (s : State) (eat : Bool) : Option State :=
  if eat then
    some { s with snake := s.snake ++ [s.cur] }
  else
    let snake := shift s.snake
    if s.dir ≠ Dir.Die then
      if snake.length = 0 then
        none
      else
        some { s with snake := snake.set (snake.length - 1) s.cur }
    else
      some { s with snake := snake }

/-- One frame: `func draw()`. `none` stands for a run-time panic. -/
def draw (ev : Event) (s : State) : Option State :=
  let s1 := keys ev s
  let mv := move ev s1
  let fd := eatFood mv.1 mv.2
  let s4 := selfHit fd.1 mv.2
  let s5 := makefood ev s4
  updateBody s5 fd.2

/-! ## The collision tests of a frame -/

/-- State and head rectangle at the collision tests of a frame: after the key
handling and the head movement. -/
def atHead (ev : Event) (s : State) : State × Rect :=
  move ev (keys ev s)

/-- Result of `food.OverlapsRect(head, size)` in the frame run from `s`. -/
def foodIndex (ev : Event) (s : State) : Int :=
  List.OverlapsRect (atHead ev s).1.food (atHead ev s).2 (atHead ev s).1.size

/-- Result of `snake.OverlapsRect(head, size)` in the frame run from `s`. -/
def bodyIndex (ev : Event) (s : State) : Int :=
  List.OverlapsRect (atHead ev s).1.snake (atHead ev s).2 (atHead ev s).1.size

/-! ## Concrete scenarios -/

/-- No key pressed, a 100 by 100 window, every random draw equal to `1/2`. -/
def evQuiet : Event :=
  { Pressed := false, Name := "", Width := 100, Height := 100, rand := fun _ => 1 / 2 }

/-- Head on the top edge, moving Up. -/
def stUpEdge : State :=
  { size := 10, speed := 5, snake := [⟨50, 50⟩], food := [], dir := Dir.Up,
    cur := ⟨50, 0⟩, score := 0, max := 0 }

/-- Head at `x = 95`, moving Right at speed 10. -/
def stRight95 : State :=
  { size := 10, speed := 10, snake := [⟨50, 20⟩], food := [], dir := Dir.Right,
    cur := ⟨95, 50⟩, score := 0, max := 0 }

/-- A body cell and a food item on the same spot, just ahead of the head. -/
def stBoth : State :=
  { size := 10, speed := 5, snake := [⟨20, 50⟩], food := [⟨20, 50⟩], dir := Dir.Right,
    cur := ⟨10, 50⟩, score := 0, max := 0 }

/-- A food item just ahead of the head and no body cell in the way. -/
def stEat : State :=
  { size := 10, speed := 5, snake := [⟨80, 80⟩], food := [⟨20, 50⟩], dir := Dir.Right,
    cur := ⟨10, 50⟩, score := 2, max := 2 }

/-- Body `[(10,10),(20,10),(30,10)]`, head moving Left from `(20,10)` at speed 10. -/
def stSelf : State :=
  { size := 10, speed := 10, snake := [⟨10, 10⟩, ⟨20, 10⟩, ⟨30, 10⟩], food := [],
    dir := Dir.Left, cur := ⟨20, 10⟩, score := 3, max := 5 }

/-- State after the frame from `stUpEdge`: the head is at `Y = Height`. -/
def stUpEdgeAfter : State :=
  { size := 10, speed := 5, snake := [⟨50, 100⟩], food := [], dir := Dir.Up,
    cur := ⟨50, 100⟩, score := 0, max := 0 }

/-- State after the frame from `stRight95`: the head is at `X = 0`. -/
def stRight95After : State :=
  { size := 10, speed := 10, snake := [⟨0, 50⟩], food := [], dir := Dir.Right,
    cur := ⟨0, 50⟩, score := 0, max := 0 }

/-- State after the frame from `stBoth`: eaten and dead in the same frame. -/
def stBothAfter : State :=
  { size := 10, speed := 5, snake := [⟨20, 50⟩, ⟨15, 50⟩], food := [⟨50, 50⟩],
    dir := Dir.Die, cur := ⟨15, 50⟩, score := 0, max := 1 }

/-- State after the frame from `stEat`. -/
def stEatAfter : State :=
  { size := 10, speed := 5, snake := [⟨80, 80⟩, ⟨15, 50⟩], food := [⟨50, 50⟩],
    dir := Dir.Right, cur := ⟨15, 50⟩, score := 3, max := 3 }

/-- State after the frame from `stSelf`. -/
def stSelfAfter : State :=
  { size := 10, speed := 10, snake := [⟨20, 10⟩, ⟨30, 10⟩, ⟨30, 10⟩], food := [],
    dir := Dir.Die, cur := ⟨10, 10⟩, score := 0, max := 5 }

/-! ## Start of a session -/

/-- The package-level variables before `setup` runs: the `var` block, with the
cell size and speed as set by the command-line flags. -/
def initial (size speed : ℚ) : State :=
  { size := size, speed := speed, snake := [], food := [], dir := Dir.None,
    cur := ⟨0, 0⟩, score := 0, max := 0 }

/-- Session start, `func setup()`, for the configured `width`, `start` and
`foods`. `make` with a negative length is a run-time panic: `none`. -/
def setup (width start foods : Int) (s : State) : Option State :=
  if start < 0 ∨ foods < 0 then
    none
  else
    some { s with
      dir := Dir.Up
      cur := { X := ((Int.tdiv width 2 : Int) : ℚ), Y := 0 }
      snake := List.replicate start.toNat { X := 0, Y := 0 }
      food := List.replicate foods.toNat { X := 0, Y := 0 } }

/-- Successive frames, one per event of the list. -/
def run : List Event → State → Option State
  | [], s => some s
  | ev :: evs, s => (draw ev s).bind (run evs)

/-! ## Candidates of the food placement -/

/-- Candidate number `k` (from 0) of a retry loop that starts when `n` random
draws have been made: its coordinates come from draws `n + 2k` and
`n + 2k + 1`. -/
def cand (ev : Event) (size : ℚ) (n k : ℕ) : Point :=
  { X := size + ev.rand (n + 2 * k) * (ev.Width - size - size)
    Y := size + ev.rand (n + 2 * k + 1) * (ev.Height - size - size) }

/-- The square of `c` overlaps neither a placed food cell nor a placed body
cell: the test `food.Overlaps(c, size) < 0 && snake.Overlaps(c, size) < 0`. -/
def Free (food snake : List Point) (size : ℚ) (c : Point) : Prop :=
  List.Overlaps food c size < 0 ∧ List.Overlaps snake c size < 0

instance (food snake : List Point) (size : ℚ) (c : Point) :
    Decidable (Free food snake size c) := by
  unfold Free; infer_instance

/-- Food list and number of random draws made when the outer loop of `makefood`,
run from state `s`, reaches slot `i`. -/
def foodBefore (ev : Event) (s : State) (i : ℕ) : List Point × ℕ :=
  (List.range i).foldl (makefoodStep ev s.size s.snake) (s.food, 0)

/-! ## More concrete scenarios -/

/-- A pressed key `name` in a 100 by 100 window, every random draw `1/2`. -/
def evKey (name : String) : Event :=
  { Pressed := true, Name := name, Width := 100, Height := 100, rand := fun _ => 1 / 2 }

/-- No key pressed in a 100 by 100 window, with the random draws `rnd`. -/
def evRand (rnd : ℕ → ℚ) : Event :=
  { Pressed := false, Name := "", Width := 100, Height := 100, rand := rnd }

/-- A dead snake of three cells, no food. -/
def stDead : State :=
  { size := 10, speed := 5, snake := [⟨20, 10⟩, ⟨30, 10⟩, ⟨40, 10⟩], food := [],
    dir := Dir.Die, cur := ⟨50, 50⟩, score := 0, max := 5 }

/-- State after a frame without key from `stDead`. -/
def stDeadAfter : State :=
  { size := 10, speed := 5, snake := [⟨30, 10⟩, ⟨40, 10⟩, ⟨40, 10⟩], food := [],
    dir := Dir.Die, cur := ⟨50, 50⟩, score := 0, max := 5 }

/-- State after a frame with the Up arrow pressed from `stDead`. -/
def stDeadAfterUp : State :=
  { size := 10, speed := 5, snake := [⟨30, 10⟩, ⟨40, 10⟩, ⟨50, 45⟩], food := [],
    dir := Dir.Up, cur := ⟨50, 45⟩, score := 0, max := 5 }

/-- A dead snake and a food item whose square contains the origin. -/
def stDeadFood : State :=
  { size := 10, speed := 5, snake := [⟨20, 10⟩], food := [⟨1, 1⟩],
    dir := Dir.Die, cur := ⟨50, 50⟩, score := 0, max := 5 }

/-- State after a frame without key from `stDeadFood`. -/
def stDeadFoodAfter : State :=
  { size := 10, speed := 5, snake := [⟨20, 10⟩, ⟨50, 50⟩], food := [⟨50, 50⟩],
    dir := Dir.Die, cur := ⟨50, 50⟩, score := 1, max := 5 }

/-- A snake at speed `3/2`. -/
def stSlow : State :=
  { size := 10, speed := 3 / 2, snake := [⟨50, 80⟩], food := [], dir := Dir.Up,
    cur := ⟨50, 50⟩, score := 0, max := 0 }

/-- State after a frame with `-` pressed from `stSlow`. -/
def stSlowAfter : State :=
  { size := 10, speed := 1 / 2, snake := [⟨50, 99 / 2⟩], food := [], dir := Dir.Up,
    cur := ⟨50, 99 / 2⟩, score := 0, max := 0 }

/-- The scenario of the specification: arena 100 by 100, cell size 10, one food
at `(50,50)`, body `[(10,50)]`, head at `(10,50)` moving Right at speed 10. -/
def stScenario : State :=
  { size := 10, speed := 10, snake := [⟨10, 50⟩], food := [⟨50, 50⟩], dir := Dir.Right,
    cur := ⟨10, 50⟩, score := 0, max := 0 }

/-- The scenario after one frame. -/
def stScenario1 : State :=
  { size := 10, speed := 10, snake := [⟨20, 50⟩], food := [⟨50, 50⟩], dir := Dir.Right,
    cur := ⟨20, 50⟩, score := 0, max := 0 }

/-- The scenario after two frames. -/
def stScenario2 : State :=
  { size := 10, speed := 10, snake := [⟨30, 50⟩], food := [⟨50, 50⟩], dir := Dir.Right,
    cur := ⟨30, 50⟩, score := 0, max := 0 }

/-- The scenario after three frames, when every random draw is `1/2`. -/
def stScenario3 : State :=
  { size := 10, speed := 10, snake := [⟨30, 50⟩, ⟨40, 50⟩], food := [⟨50, 50⟩],
    dir := Dir.Right, cur := ⟨40, 50⟩, score := 1, max := 1 }

/-- A food list with an empty slot between two placed items, next to a body. -/
def stRefill : State :=
  { size := 10, speed := 5, snake := [⟨50, 50⟩], food := [⟨20, 20⟩, ⟨0, 0⟩, ⟨80, 80⟩],
    dir := Dir.Right, cur := ⟨50, 50⟩, score := 0, max := 0 }

/-- Random draws whose first candidate is `(50,50)` and second is `(30,70)`. -/
def evRefill : Event :=
  evRand (fun n => if n = 2 then 1 / 4 else if n = 3 then 3 / 4 else 1 / 2)

/-- The first frame of a session: no key pressed, the default 1800 by 1200
window, every random draw `1/2`. -/
def evStart : Event :=
  { Pressed := false, Name := "", Width := 1800, Height := 1200, rand := fun _ => 1 / 2 }

/-- State after `setup` with the default flags except an initial snake length
of 0: an empty body, ten empty food slots, the head at `(900, 0)` moving Up. -/
def stStartEmpty : State :=
  { size := 50, speed := 5, snake := [], food := List.replicate 10 ⟨0, 0⟩, dir := Dir.Up,
    cur := ⟨900, 0⟩, score := 0, max := 0 }

/-- The scenario after one frame with `-` pressed: the speed is 9. -/
def stScenarioMinus : State :=
  { size := 10, speed := 9, snake := [⟨19, 50⟩], food := [⟨50, 50⟩], dir := Dir.Right,
    cur := ⟨19, 50⟩, score := 0, max := 0 }

/-! ## Geometry over `float64` values -/

namespace IEEE

/-- A `float64` value: not-a-number, minus infinity, plus infinity, or a finite
number. -/
inductive F64 where
  | nan
  | ninf
  | pinf
  | fin (q : ℚ)
  deriving DecidableEq, Repr

/-- Go's comparison `a <= b` on `float64`: false as soon as one side is NaN. -/
def F64.le : F64 → F64 → Bool
  | F64.nan, _ => false
  | _, F64.nan => false
  | F64.ninf, _ => true
  | _, F64.pinf => true
  | F64.pinf, _ => false
  | _, F64.ninf => false
  | F64.fin a, F64.fin b => decide (a ≤ b)

/-- Go's `a + b` on `float64`; `rnd` rounds the exact sum of two finite numbers
(possibly to an infinity, on overflow). -/
def F64.add (rnd : ℚ → F64) : F64 → F64 → F64
  | F64.nan, _ => F64.nan
  | _, F64.nan => F64.nan
  | F64.pinf, F64.ninf => F64.nan
  | F64.ninf, F64.pinf => F64.nan
  | F64.pinf, _ => F64.pinf
  | _, F64.pinf => F64.pinf
  | F64.ninf, _ => F64.ninf
  | _, F64.ninf => F64.ninf
  | F64.fin a, F64.fin b => rnd (a + b)

/-- Go's `a - b` on `float64`; `rnd` rounds the exact difference of two finite
numbers. -/
def F64.sub (rnd : ℚ → F64) : F64 → F64 → F64
  | F64.nan, _ => F64.nan
  | _, F64.nan => F64.nan
  | F64.pinf, F64.pinf => F64.nan
  | F64.ninf, F64.ninf => F64.nan
  | F64.pinf, _ => F64.pinf
  | F64.ninf, _ => F64.ninf
  | _, F64.pinf => F64.ninf
  | _, F64.ninf => F64.pinf
  | F64.fin a, F64.fin b => rnd (a - b)

/-- Go's `a / 2` on `float64`; `rnd` rounds the exact half of a finite number. -/
def F64.half (rnd : ℚ → F64) : F64 → F64
  | F64.nan => F64.nan
  | F64.pinf => F64.pinf
  | F64.ninf => F64.ninf
  | F64.fin a => rnd (a / 2)

/-- What is used of the rounding of `float64` operations (round to nearest): it
is monotone, hence never NaN, and it is exact at 0. -/
def Rounds (rnd : ℚ → F64) : Prop :=
  (∀ a b : ℚ, a ≤ b → (rnd a).le (rnd b) = true) ∧ rnd 0 = F64.fin 0

/-- A point with `float64` coordinates (`type Point struct { X, Y float64 }`). -/
structure Point where
  X : F64
  Y : F64
  deriving DecidableEq, Repr

/-- A box with `float64` corners (`type Rect struct { Min, Max Point }`). -/
structure Rect where
  Min : Point
  Max : Point
  deriving DecidableEq, Repr

/-- The function `func (p Point) toRect(w, h float64) Rect` on `float64`
values. -/
def Point.toRect (rnd : ℚ → F64) (p : Point) (w h : F64) : Rect :=
  let w := F64.half rnd w
  let h := F64.half rnd h
  { Min := { X := F64.sub rnd p.X w, Y := F64.sub rnd p.Y h }
    Max := { X := F64.add rnd p.X w, Y := F64.add rnd p.Y h } }

/-- The function `func (p Point) toSquare(sz float64) Rect` on `float64`
values. -/
def Point.toSquare (rnd : ℚ → F64) (p : Point) (sz : F64) : Rect :=
  let cz := F64.half rnd sz
  { Min := { X := F64.sub rnd p.X cz, Y := F64.sub rnd p.Y cz }
    Max := { X := F64.add rnd p.X cz, Y := F64.add rnd p.Y cz } }

end IEEE

/-! ## Specification predicates for the scans -/

/-- A cell `c` counts as hit by the rectangle `r`: it is not the `(0,0)`
sentinel and its square footprint overlaps `r`. -/
def Hits (r : Rect) (sz : ℚ) (c : Point) : Prop :=
  ¬(c.X = 0 ∧ c.Y = 0) ∧ (c.toSquare sz).Overlaps r = true

/-- Index `i` is the smallest index of `l` whose cell is hit by `r`. -/
def FirstHit (l : List Point) (r : Rect) (sz : ℚ) (i : ℕ) : Prop :=
  (∃ c, l[i]? = some c ∧ Hits r sz c) ∧ ∀ j, j < i → ∀ d, l[j]? = some d → ¬Hits r sz d

instance (r : Rect) (sz : ℚ) (c : Point) : Decidable (Hits r sz c) := by
  unfold Hits; infer_instance

/-! ## Lemmas on the scan loop -/

theorem scanRect_nil (r : Rect) (sz : ℚ) (k : ℕ) : List.scanRect r sz [] k = -1 := rfl

theorem scanRect_cons_hit (r : Rect) (sz : ℚ) (c : Point) (cs : List Point) (k : ℕ)
    (h : Hits r sz c) : List.scanRect r sz (c :: cs) k = (k : Int) := by
  obtain ⟨h0, hov⟩ := h
  simp [List.scanRect, h0, hov]

theorem scanRect_cons_miss (r : Rect) (sz : ℚ) (c : Point) (cs : List Point) (k : ℕ)
    (h : ¬Hits r sz c) : List.scanRect r sz (c :: cs) k = List.scanRect r sz cs (k + 1) := by
  unfold Hits at h
  by_cases h0 : c.X = 0 ∧ c.Y = 0
  · simp [List.scanRect, h0]
  · have hov : (c.toSquare sz).Overlaps r = false := by
      cases hb : (c.toSquare sz).Overlaps r
      · rfl
      · exact absurd ⟨h0, hb⟩ h
    simp [List.scanRect, h0, hov]

/-- The scan answers `-1` or an index of the list (shifted by the start index). -/
theorem scanRect_range (r : Rect) (sz : ℚ) (l : List Point) (k : ℕ) :
    List.scanRect r sz l k = -1 ∨
      ∃ i : ℕ, i < l.length ∧ List.scanRect r sz l k = ((k + i : ℕ) : Int) := by
  induction l generalizing k with
  | nil => exact Or.inl rfl
  | cons c cs ih =>
    by_cases h : Hits r sz c
    · exact Or.inr ⟨0, by simp, by simp [scanRect_cons_hit r sz c cs k h]⟩
    · rw [scanRect_cons_miss r sz c cs k h]
      rcases ih (k + 1) with h1 | ⟨i, hi, h2⟩
      · exact Or.inl h1
      · refine Or.inr ⟨i + 1, by simpa using hi, ?_⟩
        rw [h2]
        congr 1
        omega

/-- The scan answers `-1` exactly when no cell of the list is hit. -/
theorem scanRect_eq_neg_one_iff (r : Rect) (sz : ℚ) (l : List Point) (k : ℕ) :
    List.scanRect r sz l k = -1 ↔ ∀ d ∈ l, ¬Hits r sz d := by
  induction l generalizing k with
  | nil => simp [scanRect_nil]
  | cons c cs ih =>
    by_cases h : Hits r sz c
    · rw [scanRect_cons_hit r sz c cs k h]
      constructor
      · intro hk
        omega
      · intro hall
        exact absurd h (hall c (List.mem_cons_self c cs))
    · rw [scanRect_cons_miss r sz c cs k h, ih (k + 1)]
      constructor
      · intro hall d hd
        rcases List.mem_cons.mp hd with rfl | hd
        · exact h
        · exact hall d hd
      · intro hall d hd
        exact hall d (List.mem_cons_of_mem c hd)

/-- The scan answers the (shifted) index `i` exactly when `i` is the first hit. -/
theorem scanRect_eq_index_iff (r : Rect) (sz : ℚ) (l : List Point) (k i : ℕ) :
    List.scanRect r sz l k = ((k + i : ℕ) : Int) ↔ FirstHit l r sz i := by
  induction l generalizing k i with
  | nil =>
    simp only [scanRect_nil, FirstHit]
    constructor
    · intro h
      omega
    · rintro ⟨⟨c, hc, -⟩, -⟩
      simp at hc
  | cons c cs ih =>
    by_cases h : Hits r sz c
    · rw [scanRect_cons_hit r sz c cs k h]
      constructor
      · intro hk
        have hi : i = 0 := by omega
        subst hi
        exact ⟨⟨c, by simp, h⟩, fun j hj => absurd hj (Nat.not_lt_zero j)⟩
      · rintro ⟨-, hmin⟩
        cases i with
        | zero => simp
        | succ n => exact absurd h (hmin 0 (Nat.succ_pos n) c (by simp))
    · rw [scanRect_cons_miss r sz c cs k h]
      cases i with
      | zero =>
        constructor
        · intro hk
          rcases scanRect_range r sz cs (k + 1) with h1 | ⟨m, -, h2⟩
          · rw [h1] at hk
            omega
          · rw [h2] at hk
            omega
        · rintro ⟨⟨d, hd, hhit⟩, -⟩
          simp at hd
          subst hd
          exact absurd hhit h
      | succ n =>
        have hidx : k + (n + 1) = (k + 1) + n := by omega
        rw [hidx, ih (k + 1) n]
        constructor
        · rintro ⟨⟨d, hd, hhit⟩, hmin⟩
          refine ⟨⟨d, by simpa using hd, hhit⟩, ?_⟩
          intro j hj e he
          cases j with
          | zero =>
            simp at he
            subst he
            exact h
          | succ m => exact hmin m (by omega) e (by simpa using he)
        · rintro ⟨⟨d, hd, hhit⟩, hmin⟩
          refine ⟨⟨d, by simpa using hd, hhit⟩, ?_⟩
          intro j hj e he
          exact hmin (j + 1) (by omega) e (by simpa using he)

/-! ## Geometry: overlap, containment and the constructed rectangles -/

/-- C3: `r.Overlaps(r2)` is false exactly when one box lies fully to one side
of the other along X or along Y, and true otherwise; hence the test is
symmetric in its two arguments. -/
theorem Rect.Overlaps_iff_not_separated (r r2 : Rect) :
    (r.Overlaps r2 = false ↔
      (r.Max.X ≤ r2.Min.X ∨ r2.Max.X ≤ r.Min.X ∨ r.Max.Y ≤ r2.Min.Y ∨ r2.Max.Y ≤ r.Min.Y)) ∧
    (r.Overlaps r2 = true ↔
      ¬(r.Max.X ≤ r2.Min.X ∨ r2.Max.X ≤ r.Min.X ∨ r.Max.Y ≤ r2.Min.Y ∨ r2.Max.Y ≤ r.Min.Y)) ∧
    r.Overlaps r2 = r2.Overlaps r := by
  refine ⟨?_, ?_, ?_⟩
  · unfold Rect.Overlaps
    by_cases hx : r.Max.X ≤ r2.Min.X ∨ r2.Max.X ≤ r.Min.X
    · simp only [hx, if_true, true_iff]
      tauto
    · by_cases hy : r.Max.Y ≤ r2.Min.Y ∨ r2.Max.Y ≤ r.Min.Y
      · simp only [hx, hy, if_true, if_false, true_iff]
        tauto
      · simp only [hx, hy, if_false]
        constructor
        · intro h
          exact absurd h (by decide)
        · intro h
          tauto
  · unfold Rect.Overlaps
    by_cases hx : r.Max.X ≤ r2.Min.X ∨ r2.Max.X ≤ r.Min.X
    · simp only [hx, if_true]
      constructor
      · intro h
        exact absurd h (by decide)
      · intro h
        tauto
    · by_cases hy : r.Max.Y ≤ r2.Min.Y ∨ r2.Max.Y ≤ r.Min.Y
      · simp only [hx, hy, if_true, if_false]
        constructor
        · intro h
          exact absurd h (by decide)
        · intro h
          tauto
      · simp only [hx, hy, if_false, true_iff]
        tauto
  · unfold Rect.Overlaps
    have hx : (r.Max.X ≤ r2.Min.X ∨ r2.Max.X ≤ r.Min.X) ↔
        (r2.Max.X ≤ r.Min.X ∨ r.Max.X ≤ r2.Min.X) := Or.comm
    have hy : (r.Max.Y ≤ r2.Min.Y ∨ r2.Max.Y ≤ r.Min.Y) ↔
        (r2.Max.Y ≤ r.Min.Y ∨ r.Max.Y ≤ r2.Min.Y) := Or.comm
    simp only [hx, hy]

/-- C4: a point contained (half-open) in two rectangles forces the two
rectangles to overlap, so cells that do not overlap never both claim a point. -/
theorem Rect.Overlaps_of_common_point (p : Point) (r r2 : Rect)
    (h1 : r.Contains p = true) (h2 : r2.Contains p = true) :
    r.Overlaps r2 = true := by
  simp only [Rect.Contains, Bool.and_eq_true, decide_eq_true_eq, ge_iff_le] at h1 h2
  obtain ⟨⟨⟨a1, a2⟩, a3⟩, a4⟩ := h1
  obtain ⟨⟨⟨b1, b2⟩, b3⟩, b4⟩ := h2
  have hx : ¬(r.Max.X ≤ r2.Min.X ∨ r2.Max.X ≤ r.Min.X) := by
    rintro (h | h) <;> linarith
  have hy : ¬(r.Max.Y ≤ r2.Min.Y ∨ r2.Max.Y ≤ r.Min.Y) := by
    rintro (h | h) <;> linarith
  simp only [Rect.Overlaps, hx, hy, if_false]

/-- Witness of C4: the point `(5,5)` lies in both `[0,10)²` and `[5,15)²`. -/
theorem Rect.Overlaps_of_common_point_witness :
    Rect.Contains ⟨⟨0, 0⟩, ⟨10, 10⟩⟩ ⟨5, 5⟩ = true ∧
      Rect.Contains ⟨⟨5, 5⟩, ⟨15, 15⟩⟩ ⟨5, 5⟩ = true ∧
      Rect.Overlaps ⟨⟨0, 0⟩, ⟨10, 10⟩⟩ ⟨⟨5, 5⟩, ⟨15, 15⟩⟩ = true :=
  ⟨by with_unfolding_all decide, by with_unfolding_all decide,
    Rect.Overlaps_of_common_point ⟨5, 5⟩ ⟨⟨0, 0⟩, ⟨10, 10⟩⟩ ⟨⟨5, 5⟩, ⟨15, 15⟩⟩
      (by with_unfolding_all decide) (by with_unfolding_all decide)⟩

/-- On finite values and with exact rounding, the `float64` constructions are
the rational ones. -/
theorem IEEE.toSquare_toRect_fin (p : SnakeGame.Point) (sz w h : ℚ) :
    IEEE.Point.toSquare IEEE.F64.fin ⟨IEEE.F64.fin p.X, IEEE.F64.fin p.Y⟩ (IEEE.F64.fin sz) =
        ⟨⟨IEEE.F64.fin (SnakeGame.Point.toSquare p sz).Min.X,
            IEEE.F64.fin (SnakeGame.Point.toSquare p sz).Min.Y⟩,
          ⟨IEEE.F64.fin (SnakeGame.Point.toSquare p sz).Max.X,
            IEEE.F64.fin (SnakeGame.Point.toSquare p sz).Max.Y⟩⟩ ∧
      IEEE.Point.toRect IEEE.F64.fin ⟨IEEE.F64.fin p.X, IEEE.F64.fin p.Y⟩ (IEEE.F64.fin w)
          (IEEE.F64.fin h) =
        ⟨⟨IEEE.F64.fin (SnakeGame.Point.toRect p w h).Min.X,
            IEEE.F64.fin (SnakeGame.Point.toRect p w h).Min.Y⟩,
          ⟨IEEE.F64.fin (SnakeGame.Point.toRect p w h).Max.X,
            IEEE.F64.fin (SnakeGame.Point.toRect p w h).Max.Y⟩⟩ :=
  ⟨rfl, rfl⟩

/-- Exact arithmetic is a rounding in the sense of `Rounds`. -/
theorem IEEE.rounds_fin : IEEE.Rounds IEEE.F64.fin := by
  refine ⟨?_, rfl⟩
  intro a b hab
  simp [IEEE.F64.le, hab]

/-- The half of a value that is at least 0 is plus infinity or a finite number
that is at least 0. -/
theorem IEEE.half_nonneg (rnd : ℚ → IEEE.F64) (hr : IEEE.Rounds rnd) (v : IEEE.F64)
    (hv : (IEEE.F64.fin 0).le v = true) :
    IEEE.F64.half rnd v = IEEE.F64.pinf ∨
      ∃ c : ℚ, 0 ≤ c ∧ IEEE.F64.half rnd v = IEEE.F64.fin c := by
  cases v with
  | nan => simp [IEEE.F64.le] at hv
  | ninf => simp [IEEE.F64.le] at hv
  | pinf => exact Or.inl rfl
  | fin a =>
    have ha : (0 : ℚ) ≤ a := by simpa [IEEE.F64.le] using hv
    have hm := hr.1 0 (a / 2) (by linarith)
    rw [hr.2] at hm
    show rnd (a / 2) = IEEE.F64.pinf ∨ ∃ c : ℚ, 0 ≤ c ∧ rnd (a / 2) = IEEE.F64.fin c
    cases hc : rnd (a / 2) with
    | nan => rw [hc] at hm; simp [IEEE.F64.le] at hm
    | ninf => rw [hc] at hm; simp [IEEE.F64.le] at hm
    | pinf => exact Or.inl rfl
    | fin c =>
      rw [hc] at hm
      exact Or.inr ⟨c, by simpa [IEEE.F64.le] using hm, rfl⟩

/-- A finite coordinate minus a half-extent that is plus infinity or finite and
at least 0 is at most the coordinate plus it. -/
theorem IEEE.sub_le_add (rnd : ℚ → IEEE.F64) (hr : IEEE.Rounds rnd) (x : ℚ) (cz : IEEE.F64)
    (hcz : cz = IEEE.F64.pinf ∨ ∃ c : ℚ, 0 ≤ c ∧ cz = IEEE.F64.fin c) :
    (IEEE.F64.sub rnd (IEEE.F64.fin x) cz).le (IEEE.F64.add rnd (IEEE.F64.fin x) cz) = true := by
  rcases hcz with rfl | ⟨c, hc, rfl⟩
  · rfl
  · exact hr.1 (x - c) (x + c) (by linarith)

/-- Counterexample to C5 as stated: with exact arithmetic on these values, a
negative size gives a square whose `Min.X = 1` lies beyond its `Max.X = -1`; and
with a NaN coordinate (the head after `-speed NaN`) the head rectangle
`toRect(50, 1)` has `Min.Y <= Max.Y` false although width and height are
positive. -/
theorem IEEE.toSquare_toRect_not_ordered :
    (IEEE.Point.toSquare IEEE.F64.fin ⟨IEEE.F64.fin 0, IEEE.F64.fin 0⟩
        (IEEE.F64.fin (-2))).Min.X = IEEE.F64.fin 1 ∧
      (IEEE.Point.toSquare IEEE.F64.fin ⟨IEEE.F64.fin 0, IEEE.F64.fin 0⟩
        (IEEE.F64.fin (-2))).Max.X = IEEE.F64.fin (-1) ∧
      (IEEE.F64.fin 1).le (IEEE.F64.fin (-1)) = false ∧
      ((IEEE.Point.toRect IEEE.F64.fin ⟨IEEE.F64.fin 900, IEEE.F64.nan⟩ (IEEE.F64.fin 50)
          (IEEE.F64.fin 1)).Min.Y.le
        (IEEE.Point.toRect IEEE.F64.fin ⟨IEEE.F64.fin 900, IEEE.F64.nan⟩ (IEEE.F64.fin 50)
          (IEEE.F64.fin 1)).Max.Y) = false := by
  refine ⟨?_, ?_, ?_, ?_⟩ <;> with_unfolding_all decide

/-- C5 (amended): on `float64` values, whatever the rounding, for every point
with finite coordinates and every size that is at least 0 (so not NaN) the
square `p.toSquare(sz)` has `Min.X <= Max.X` and `Min.Y <= Max.Y`, and for every
width and height that are at least 0 so has the rectangle `p.toRect(w, h)`. -/
theorem IEEE.toSquare_toRect_ordered (rnd : ℚ → IEEE.F64) (hr : IEEE.Rounds rnd)
    (x y : ℚ) (sz w h : IEEE.F64)
    (hsz : (IEEE.F64.fin 0).le sz = true) (hw : (IEEE.F64.fin 0).le w = true)
    (hh : (IEEE.F64.fin 0).le h = true) :
    ((IEEE.Point.toSquare rnd ⟨IEEE.F64.fin x, IEEE.F64.fin y⟩ sz).Min.X.le
        (IEEE.Point.toSquare rnd ⟨IEEE.F64.fin x, IEEE.F64.fin y⟩ sz).Max.X = true ∧
      (IEEE.Point.toSquare rnd ⟨IEEE.F64.fin x, IEEE.F64.fin y⟩ sz).Min.Y.le
        (IEEE.Point.toSquare rnd ⟨IEEE.F64.fin x, IEEE.F64.fin y⟩ sz).Max.Y = true) ∧
    ((IEEE.Point.toRect rnd ⟨IEEE.F64.fin x, IEEE.F64.fin y⟩ w h).Min.X.le
        (IEEE.Point.toRect rnd ⟨IEEE.F64.fin x, IEEE.F64.fin y⟩ w h).Max.X = true ∧
      (IEEE.Point.toRect rnd ⟨IEEE.F64.fin x, IEEE.F64.fin y⟩ w h).Min.Y.le
        (IEEE.Point.toRect rnd ⟨IEEE.F64.fin x, IEEE.F64.fin y⟩ w h).Max.Y = true) :=
  ⟨⟨IEEE.sub_le_add rnd hr x _ (IEEE.half_nonneg rnd hr sz hsz),
      IEEE.sub_le_add rnd hr y _ (IEEE.half_nonneg rnd hr sz hsz)⟩,
    ⟨IEEE.sub_le_add rnd hr x _ (IEEE.half_nonneg rnd hr w hw),
      IEEE.sub_le_add rnd hr y _ (IEEE.half_nonneg rnd hr h hh)⟩⟩

/-- Witness of C5 (amended): with exact arithmetic, the cell of size 50 around
`(900, 0)` and the head rectangle of width 50 and height 1 around it. -/
theorem IEEE.toSquare_toRect_ordered_witness :
    IEEE.Rounds IEEE.F64.fin ∧
    ((IEEE.F64.fin 0).le (IEEE.F64.fin 50) = true ∧
      (IEEE.F64.fin 0).le (IEEE.F64.fin 1) = true) ∧
    (IEEE.Point.toSquare IEEE.F64.fin ⟨IEEE.F64.fin 900, IEEE.F64.fin 0⟩ (IEEE.F64.fin 50) =
        ⟨⟨IEEE.F64.fin 875, IEEE.F64.fin (-25)⟩, ⟨IEEE.F64.fin 925, IEEE.F64.fin 25⟩⟩) ∧
    (((IEEE.Point.toSquare IEEE.F64.fin ⟨IEEE.F64.fin 900, IEEE.F64.fin 0⟩
          (IEEE.F64.fin 50)).Min.X.le
        (IEEE.Point.toSquare IEEE.F64.fin ⟨IEEE.F64.fin 900, IEEE.F64.fin 0⟩
          (IEEE.F64.fin 50)).Max.X = true ∧
      (IEEE.Point.toSquare IEEE.F64.fin ⟨IEEE.F64.fin 900, IEEE.F64.fin 0⟩
          (IEEE.F64.fin 50)).Min.Y.le
        (IEEE.Point.toSquare IEEE.F64.fin ⟨IEEE.F64.fin 900, IEEE.F64.fin 0⟩
          (IEEE.F64.fin 50)).Max.Y = true) ∧
    ((IEEE.Point.toRect IEEE.F64.fin ⟨IEEE.F64.fin 900, IEEE.F64.fin 0⟩ (IEEE.F64.fin 50)
          (IEEE.F64.fin 1)).Min.X.le
        (IEEE.Point.toRect IEEE.F64.fin ⟨IEEE.F64.fin 900, IEEE.F64.fin 0⟩ (IEEE.F64.fin 50)
          (IEEE.F64.fin 1)).Max.X = true ∧
      (IEEE.Point.toRect IEEE.F64.fin ⟨IEEE.F64.fin 900, IEEE.F64.fin 0⟩ (IEEE.F64.fin 50)
          (IEEE.F64.fin 1)).Min.Y.le
        (IEEE.Point.toRect IEEE.F64.fin ⟨IEEE.F64.fin 900, IEEE.F64.fin 0⟩ (IEEE.F64.fin 50)
          (IEEE.F64.fin 1)).Max.Y = true)) :=
  ⟨IEEE.rounds_fin, ⟨by with_unfolding_all decide, by with_unfolding_all decide⟩,
    by norm_num [IEEE.Point.toSquare, IEEE.F64.half, IEEE.F64.sub, IEEE.F64.add],
    IEEE.toSquare_toRect_ordered IEEE.F64.fin IEEE.rounds_fin 900 0 (IEEE.F64.fin 50)
      (IEEE.F64.fin 50) (IEEE.F64.fin 1) (by with_unfolding_all decide)
      (by with_unfolding_all decide) (by with_unfolding_all decide)⟩

/-! ## The scans return the first hit -/

/-- No cell of `l` is hit exactly when no index of `l` holds a hit cell. -/
theorem forall_mem_not_hits_iff (r : Rect) (sz : ℚ) (l : List Point) :
    (∀ d ∈ l, ¬Hits r sz d) ↔ ∀ (i : ℕ) (c : Point), l[i]? = some c → ¬Hits r sz c := by
  constructor
  · intro h i c hc
    exact h c (List.getElem?_mem hc)
  · intro h d hd
    obtain ⟨i, hi⟩ := List.mem_iff_getElem?.mp hd
    exact h i d hi

/-- C1: `l.Overlaps(p, sz)` returns the smallest index whose cell is not the
`(0,0)` sentinel and whose square overlaps the square of `p`; it returns `-1`
exactly when no index qualifies, and it returns nothing else. -/
theorem List.Overlaps_first_hit (l : List Point) (p : Point) (sz : ℚ) :
    (∀ i : ℕ, List.Overlaps l p sz = (i : Int) ↔ FirstHit l (p.toSquare sz) sz i) ∧
    (List.Overlaps l p sz = -1 ↔
      ∀ (i : ℕ) (c : Point), l[i]? = some c → ¬Hits (p.toSquare sz) sz c) ∧
    (List.Overlaps l p sz = -1 ∨
      ∃ i : ℕ, i < l.length ∧ List.Overlaps l p sz = (i : Int)) := by
  refine ⟨?_, ?_, ?_⟩
  · intro i
    have h := scanRect_eq_index_iff (p.toSquare sz) sz l 0 i
    simpa [List.Overlaps] using h
  · rw [← forall_mem_not_hits_iff]
    exact scanRect_eq_neg_one_iff (p.toSquare sz) sz l 0
  · have h := scanRect_range (p.toSquare sz) sz l 0
    simpa [List.Overlaps] using h

/-- C2: `l.OverlapsRect(r, sz)` returns the smallest index whose cell is not the
`(0,0)` sentinel and whose square overlaps `r`, and `-1` exactly when there is
none; in particular a non-empty list none of whose cells' squares overlaps `r`
gives `-1`. -/
theorem List.OverlapsRect_first_hit (l : List Point) (r : Rect) (sz : ℚ) :
    (∀ i : ℕ, List.OverlapsRect l r sz = (i : Int) ↔ FirstHit l r sz i) ∧
    (List.OverlapsRect l r sz = -1 ↔
      ∀ (i : ℕ) (c : Point), l[i]? = some c → ¬Hits r sz c) ∧
    (List.OverlapsRect l r sz = -1 ∨
      ∃ i : ℕ, i < l.length ∧ List.OverlapsRect l r sz = (i : Int)) ∧
    (l ≠ [] → (∀ c ∈ l, (c.toSquare sz).Overlaps r = false) →
      List.OverlapsRect l r sz = -1) := by
  refine ⟨?_, ?_, ?_, ?_⟩
  · intro i
    have h := scanRect_eq_index_iff r sz l 0 i
    simpa [List.OverlapsRect] using h
  · rw [← forall_mem_not_hits_iff]
    exact scanRect_eq_neg_one_iff r sz l 0
  · have h := scanRect_range r sz l 0
    simpa [List.OverlapsRect] using h
  · intro _ hall
    refine (scanRect_eq_neg_one_iff r sz l 0).mpr ?_
    intro d hd hhit
    have := hall d hd
    rw [hhit.2] at this
    exact absurd this (by decide)

/-- Witness of C2: a three-cell body and a rectangle far away from all of it. -/
theorem List.OverlapsRect_first_hit_witness :
    ([⟨10, 10⟩, ⟨20, 10⟩, ⟨30, 10⟩] : List Point) ≠ [] ∧
      (∀ c ∈ ([⟨10, 10⟩, ⟨20, 10⟩, ⟨30, 10⟩] : List Point),
        (c.toSquare 10).Overlaps ⟨⟨70, 70⟩, ⟨80, 80⟩⟩ = false) ∧
      List.OverlapsRect [⟨10, 10⟩, ⟨20, 10⟩, ⟨30, 10⟩] ⟨⟨70, 70⟩, ⟨80, 80⟩⟩ 10 = -1 :=
  ⟨by simp, by with_unfolding_all decide,
    (List.OverlapsRect_first_hit [⟨10, 10⟩, ⟨20, 10⟩, ⟨30, 10⟩] ⟨⟨70, 70⟩, ⟨80, 80⟩⟩ 10).2.2.2
      (by simp) (by with_unfolding_all decide)⟩

/-! ## What each phase of `draw` leaves alone -/

theorem wrapInt_of_inRange (x : Int) (h1 : -2 ^ 63 ≤ x) (h2 : x < 2 ^ 63) : wrapInt x = x := by
  unfold wrapInt
  omega

theorem keys_fields (ev : Event) (s : State) :
    (keys ev s).cur = s.cur ∧ (keys ev s).score = s.score ∧ (keys ev s).max = s.max ∧
      (keys ev s).snake = s.snake ∧ (keys ev s).size = s.size := by
  unfold keys
  split_ifs <;> exact ⟨rfl, rfl, rfl, rfl, rfl⟩

theorem keys_speed_pos (ev : Event) (s : State) (h : 0 < s.speed) : 0 < (keys ev s).speed := by
  unfold keys
  split_ifs <;> first | exact h | (show 0 < s.speed - 1; linarith) | (show 0 < s.speed + 1; linarith)

theorem move_fields (ev : Event) (s : State) :
    (move ev s).1.score = s.score ∧ (move ev s).1.max = s.max ∧
      (move ev s).1.snake = s.snake ∧ (move ev s).1.food = s.food ∧
      (move ev s).1.size = s.size ∧ (move ev s).1.dir = s.dir ∧
      (move ev s).1.speed = s.speed := by
  unfold move
  split <;> exact ⟨rfl, rfl, rfl, rfl, rfl, rfl, rfl⟩

theorem eatFood_fields (s : State) (head : Rect) :
    (eatFood s head).1.cur = s.cur ∧ (eatFood s head).1.dir = s.dir ∧
      (eatFood s head).1.snake = s.snake ∧ (eatFood s head).1.size = s.size ∧
      (eatFood s head).1.speed = s.speed := by
  unfold eatFood
  simp only
  split_ifs <;> exact ⟨rfl, rfl, rfl, rfl, rfl⟩

theorem selfHit_fields (s : State) (head : Rect) :
    (selfHit s head).cur = s.cur ∧ (selfHit s head).max = s.max ∧
      (selfHit s head).snake = s.snake ∧ (selfHit s head).food = s.food ∧
      (selfHit s head).size = s.size ∧ (selfHit s head).speed = s.speed := by
  unfold selfHit
  split_ifs <;> exact ⟨rfl, rfl, rfl, rfl, rfl, rfl⟩

theorem updateBody_fields (s s' : State) (eat : Bool) (h : updateBody s eat = some s') :
    s'.cur = s.cur ∧ s'.score = s.score ∧ s'.max = s.max ∧ s'.dir = s.dir ∧
      s'.food = s.food ∧ s'.size = s.size ∧ s'.speed = s.speed := by
  unfold updateBody at h
  simp only at h
  split_ifs at h <;> simp only [Option.some.injEq] at h <;> subst h <;>
    exact ⟨rfl, rfl, rfl, rfl, rfl, rfl, rfl⟩

/-- The head position, score, max score and direction after a completed frame
are those computed by the movement and collision phases. -/
theorem draw_fields (ev : Event) (s s' : State) (h : draw ev s = some s') :
    s'.cur = (atHead ev s).1.cur ∧
      s'.max = (eatFood (atHead ev s).1 (atHead ev s).2).1.max ∧
      s'.score = (selfHit (eatFood (atHead ev s).1 (atHead ev s).2).1 (atHead ev s).2).score ∧
      s'.dir = (selfHit (eatFood (atHead ev s).1 (atHead ev s).2).1 (atHead ev s).2).dir := by
  unfold draw at h
  simp only at h
  obtain ⟨hc, hs, hm, hd, -, -, -⟩ := updateBody_fields _ _ _ h
  obtain ⟨sc, sm, -, -, -, -⟩ :=
    selfHit_fields (eatFood (move ev (keys ev s)).1 (move ev (keys ev s)).2).1
      (move ev (keys ev s)).2
  obtain ⟨ec, -, -, -, -⟩ := eatFood_fields (move ev (keys ev s)).1 (move ev (keys ev s)).2
  simp only [makefood] at hc hs hm hd
  refine ⟨?_, ?_, hs, hd⟩
  · rw [hc, sc, ec]
    rfl
  · rw [hm, sm]
    rfl

/-! ## The body update and completion of a frame -/

theorem foldl_set_length (f : List Point → ℕ → Point) (is : List ℕ) (a : List Point) :
    (is.foldl (fun a i => a.set (i - 1) (f a i)) a).length = a.length := by
  induction is generalizing a with
  | nil => rfl
  | cons i is ih => simp [List.foldl_cons, ih]

theorem shift_length (l : List Point) : (shift l).length = l.length := by
  unfold shift
  exact foldl_set_length (fun a i => a.getD i { X := 0, Y := 0 }) _ l

theorem updateBody_isSome_of_ne_nil (s : State) (eat : Bool) (h : s.snake ≠ []) :
    (updateBody s eat).isSome = true := by
  unfold updateBody
  simp only
  have hlen : (shift s.snake).length ≠ 0 := by
    rw [shift_length]
    exact fun h0 => h (List.length_eq_zero.mp h0)
  split_ifs <;> simp

theorem updateBody_isSome_of_eat (s : State) : (updateBody s true).isSome = true := by
  simp [updateBody]

theorem updateBody_isSome_of_die (s : State) (eat : Bool) (h : s.dir = Dir.Die) :
    (updateBody s eat).isSome = true := by
  unfold updateBody
  simp only
  split_ifs with h1 h2 h3
  · rfl
  · exact absurd h h2
  · exact absurd h h2
  · rfl

/-- A frame started with a non-empty body always completes. -/
theorem draw_isSome_of_snake_ne_nil (ev : Event) (s : State) (h : s.snake ≠ []) :
    (draw ev s).isSome = true := by
  unfold draw
  simp only
  apply updateBody_isSome_of_ne_nil
  have h1 := (keys_fields ev s).2.2.2.1
  have h2 := (move_fields ev (keys ev s)).2.2.1
  have h3 := (eatFood_fields (move ev (keys ev s)).1 (move ev (keys ev s)).2).2.2.1
  have h4 := (selfHit_fields (eatFood (move ev (keys ev s)).1 (move ev (keys ev s)).2).1
    (move ev (keys ev s)).2).2.2.1
  simp only [makefood]
  rw [h4, h3, h2, h1]
  exact h

/-! ## Head movement -/

theorem atHead_fields (ev : Event) (s : State) :
    (atHead ev s).1.score = s.score ∧ (atHead ev s).1.max = s.max ∧
      (atHead ev s).1.snake = s.snake ∧ (atHead ev s).1.size = s.size := by
  obtain ⟨-, k2, k3, k4, k5⟩ := keys_fields ev s
  obtain ⟨m1, m2, m3, -, m5, -, -⟩ := move_fields ev (keys ev s)
  unfold atHead
  exact ⟨m1.trans k2, m2.trans k3, m3.trans k4, m5.trans k5⟩

/-- Moving keeps the head inside the closed arena `[0, Width] × [0, Height]`. -/
theorem move_cur_bounds (ev : Event) (s : State)
    (hx0 : 0 ≤ s.cur.X) (hx1 : s.cur.X ≤ ev.Width)
    (hy0 : 0 ≤ s.cur.Y) (hy1 : s.cur.Y ≤ ev.Height) (hsp : 0 < s.speed) :
    0 ≤ (move ev s).1.cur.X ∧ (move ev s).1.cur.X ≤ ev.Width ∧
      0 ≤ (move ev s).1.cur.Y ∧ (move ev s).1.cur.Y ≤ ev.Height := by
  have hW : 0 ≤ ev.Width := le_trans hx0 hx1
  have hH : 0 ≤ ev.Height := le_trans hy0 hy1
  unfold move
  split
  · simp only
    refine ⟨hx0, hx1, ?_, ?_⟩ <;> split_ifs <;> linarith
  · simp only
    refine ⟨hx0, hx1, ?_, ?_⟩ <;> split_ifs <;> linarith
  · simp only
    refine ⟨?_, ?_, hy0, hy1⟩ <;> split_ifs <;> linarith
  · simp only
    refine ⟨?_, ?_, hy0, hy1⟩ <;> split_ifs <;> linarith
  · exact ⟨hx0, hx1, hy0, hy1⟩

/-- Moving Right past the right edge puts the head at `X = 0`, and moving Down
past the bottom edge puts it at `Y = 0`. -/
theorem move_wrap_zero (ev : Event) (s : State) :
    (s.dir = Dir.Right → s.cur.X + s.speed > ev.Width → (move ev s).1.cur.X = 0) ∧
      (s.dir = Dir.Down → s.cur.Y + s.speed > ev.Height → (move ev s).1.cur.Y = 0) := by
  constructor
  · intro hd hx
    unfold move
    rw [hd]
    simp only [hx, if_true]
  · intro hd hy
    unfold move
    rw [hd]
    simp only [hy, if_true]

/-! ## Collision phases -/

theorem eatFood_of_hit (s : State) (head : Rect)
    (h : 0 ≤ List.OverlapsRect s.food head s.size) :
    (eatFood s head).2 = true ∧ (eatFood s head).1.score = wrapInt (s.score + 1) ∧
      (eatFood s head).1.max =
        if wrapInt (s.score + 1) > s.max then wrapInt (s.score + 1) else s.max := by
  unfold eatFood
  simp only [ge_iff_le, h, if_true, and_self]

theorem eatFood_of_miss (s : State) (head : Rect)
    (h : List.OverlapsRect s.food head s.size < 0) : eatFood s head = (s, false) := by
  unfold eatFood
  simp only [ge_iff_le, not_le.mpr h, if_false]

theorem eatFood_max_le (s : State) (head : Rect) : s.max ≤ (eatFood s head).1.max := by
  by_cases h : 0 ≤ List.OverlapsRect s.food head s.size
  · rw [(eatFood_of_hit s head h).2.2]
    split_ifs with hgt
    · exact le_of_lt hgt
    · exact le_refl _
  · rw [eatFood_of_miss s head (not_le.mp h)]

theorem selfHit_of_hit (s : State) (head : Rect)
    (h : 0 ≤ List.OverlapsRect s.snake head s.size) :
    (selfHit s head).dir = Dir.Die ∧ (selfHit s head).score = 0 := by
  unfold selfHit
  simp only [ge_iff_le, h, if_true, and_self]

theorem selfHit_of_miss (s : State) (head : Rect)
    (h : List.OverlapsRect s.snake head s.size < 0) : selfHit s head = s := by
  unfold selfHit
  simp only [ge_iff_le, not_le.mpr h, if_false]

/-- The self-collision test of `draw` reads the body and cell size that
`bodyIndex` reads: the food pickup changes neither. -/
theorem bodyIndex_eq (ev : Event) (s : State) :
    List.OverlapsRect (eatFood (atHead ev s).1 (atHead ev s).2).1.snake (atHead ev s).2
      (eatFood (atHead ev s).1 (atHead ev s).2).1.size = bodyIndex ev s := by
  obtain ⟨-, -, e3, e4, -⟩ := eatFood_fields (atHead ev s).1 (atHead ev s).2
  rw [e3, e4]
  rfl

/-- A frame in which food is eaten completes. -/
theorem draw_isSome_of_eat (ev : Event) (s : State) (h : 0 ≤ foodIndex ev s) :
    (draw ev s).isSome = true := by
  have he : (eatFood (move ev (keys ev s)).1 (move ev (keys ev s)).2).2 = true :=
    (eatFood_of_hit (atHead ev s).1 (atHead ev s).2 h).1
  unfold draw
  simp only [he]
  exact updateBody_isSome_of_eat _

/-- A frame in which the head touches the body completes. -/
theorem draw_isSome_of_selfHit (ev : Event) (s : State) (h : 0 ≤ bodyIndex ev s) :
    (draw ev s).isSome = true := by
  unfold draw
  simp only
  apply updateBody_isSome_of_die
  rw [← bodyIndex_eq] at h
  exact (selfHit_of_hit _ _ h).1

/-! ## Head position after a frame -/

/-- Counterexample to C6 as stated: the head on the top edge moving Up meets
every hypothesis of the claim, and after the frame its `Y` equals the arena
height, which is not below the height. -/
theorem draw_head_reaches_height :
    (0 ≤ stUpEdge.cur.X ∧ stUpEdge.cur.X < evQuiet.Width ∧
      0 ≤ stUpEdge.cur.Y ∧ stUpEdge.cur.Y < evQuiet.Height ∧
      0 < stUpEdge.speed ∧ stUpEdge.speed ≤ evQuiet.Width ∧
      stUpEdge.speed ≤ evQuiet.Height) ∧
    ∃ s', draw evQuiet stUpEdge = some s' ∧ s'.cur.Y = evQuiet.Height ∧
      ¬(s'.cur.Y < evQuiet.Height) := by
  refine ⟨by with_unfolding_all decide, ?_⟩
  refine ⟨stUpEdgeAfter, ?_, ?_, ?_⟩ <;>
    with_unfolding_all decide

/-- C6 (amended): from a head position in the closed arena
`[0, Width] × [0, Height]` and with a positive speed, for every input and
every direction, a frame started with a non-empty body completes, and the
head position after any completed frame lies in the closed arena again. -/
theorem draw_head_in_closed_arena (ev : Event) (s : State)
    (hx0 : 0 ≤ s.cur.X) (hx1 : s.cur.X ≤ ev.Width)
    (hy0 : 0 ≤ s.cur.Y) (hy1 : s.cur.Y ≤ ev.Height) (hsp : 0 < s.speed) :
    (s.snake ≠ [] → (draw ev s).isSome = true) ∧
    ∀ s', draw ev s = some s' →
      0 ≤ s'.cur.X ∧ s'.cur.X ≤ ev.Width ∧ 0 ≤ s'.cur.Y ∧ s'.cur.Y ≤ ev.Height := by
  refine ⟨draw_isSome_of_snake_ne_nil ev s, ?_⟩
  intro s' h
  obtain ⟨hc, -, -, -⟩ := draw_fields ev s s' h
  rw [hc]
  have kc := (keys_fields ev s).1
  unfold atHead
  exact move_cur_bounds ev (keys ev s) (by rw [kc]; exact hx0) (by rw [kc]; exact hx1)
    (by rw [kc]; exact hy0) (by rw [kc]; exact hy1) (keys_speed_pos ev s hsp)

/-- Witness of C6 (amended): the head on the top edge moving Up ends the frame
at `(50, 100)`, inside the closed arena. -/
theorem draw_head_in_closed_arena_witness :
    draw evQuiet stUpEdge = some stUpEdgeAfter ∧
      0 ≤ stUpEdgeAfter.cur.X ∧ stUpEdgeAfter.cur.X ≤ evQuiet.Width ∧
      0 ≤ stUpEdgeAfter.cur.Y ∧ stUpEdgeAfter.cur.Y ≤ evQuiet.Height :=
  ⟨by with_unfolding_all decide,
    (draw_head_in_closed_arena evQuiet stUpEdge (by with_unfolding_all decide)
      (by with_unfolding_all decide) (by with_unfolding_all decide)
      (by with_unfolding_all decide) (by with_unfolding_all decide)).2
      stUpEdgeAfter
      (by with_unfolding_all decide)⟩

/-- Counterexample to C7 as stated: a head at `x = 95` moving Right at speed 10
in a width-100 arena ends the frame at `x = 0`, not at `95 + 10 - 100 = 5`. -/
theorem draw_right_95_not_5 :
    (stRight95.dir = Dir.Right ∧ stRight95.cur.X = 95 ∧ stRight95.speed = 10 ∧
      evQuiet.Width = 100) ∧
    ∃ s', draw evQuiet stRight95 = some s' ∧ s'.cur.X = 0 ∧
      s'.cur.X ≠ stRight95.cur.X + stRight95.speed - evQuiet.Width := by
  refine ⟨by with_unfolding_all decide, ?_⟩
  refine ⟨stRight95After, ?_, ?_, ?_⟩ <;>
    with_unfolding_all decide

/-- C7 (amended): wraparound re-enters at the opposite edge. In every completed
frame moving Right (direction taken after the key handling) in which
`cur.X + speed` exceeds the arena width the new head `X` is `0`, and in every
completed frame moving Down in which `cur.Y + speed` exceeds the arena height
the new head `Y` is `0`; a frame started with a non-empty body completes, and a
head at `x = 95` moving Right at speed 10 in a width-100 arena ends at `x = 0`. -/
theorem draw_wrap_resets_to_zero (ev : Event) (s : State) :
    (s.snake ≠ [] → (draw ev s).isSome = true) ∧
    (∀ s', draw ev s = some s' →
      ((keys ev s).dir = Dir.Right → s.cur.X + (keys ev s).speed > ev.Width →
        s'.cur.X = 0) ∧
      ((keys ev s).dir = Dir.Down → s.cur.Y + (keys ev s).speed > ev.Height →
        s'.cur.Y = 0)) ∧
    ∃ s', draw evQuiet stRight95 = some s' ∧ s'.cur.X = 0 := by
  refine ⟨draw_isSome_of_snake_ne_nil ev s, ?_, ?_⟩
  · intro s' h
    obtain ⟨hc, -, -, -⟩ := draw_fields ev s s' h
    have kc := (keys_fields ev s).1
    obtain ⟨hr, hd⟩ := move_wrap_zero ev (keys ev s)
    rw [kc] at hr hd
    rw [hc]
    exact ⟨hr, hd⟩
  · exact ⟨stRight95After,
      by with_unfolding_all decide, by with_unfolding_all decide⟩

/-- Witness of C7 (amended): the frame from `x = 95` at speed 10 moves Right,
exceeds the width 100 and ends at `x = 0`. -/
theorem draw_wrap_resets_to_zero_witness :
    (keys evQuiet stRight95).dir = Dir.Right ∧
      stRight95.cur.X + (keys evQuiet stRight95).speed > evQuiet.Width ∧
      draw evQuiet stRight95 = some stRight95After ∧
      stRight95After.cur.X = 0 :=
  ⟨by with_unfolding_all decide, by with_unfolding_all decide, by with_unfolding_all decide,
    ((draw_wrap_resets_to_zero evQuiet stRight95).2.1
      stRight95After
      (by with_unfolding_all decide)).1
      (by with_unfolding_all decide) (by with_unfolding_all decide)⟩

/-! ## Score bookkeeping -/

/-- Counterexample to C8 as stated: with a food item and a body cell both under
the head rectangle, food is eaten (`food.OverlapsRect >= 0`) and yet the score
after the frame is `0`, not the score before plus one. -/
theorem draw_eat_and_die_score_zero :
    0 ≤ foodIndex evQuiet stBoth ∧
      draw evQuiet stBoth = some stBothAfter ∧
      stBothAfter.score ≠ stBoth.score + 1 := by
  refine ⟨?_, ?_, ?_⟩ <;> with_unfolding_all decide

/-- C8 (amended): if in a frame the head rectangle overlaps a non-sentinel food
cell and overlaps no non-sentinel body cell, and the score is an `int` below the
largest one, then the frame completes and the score after it equals the score
before it plus 1. -/
theorem draw_score_succ_of_eat (ev : Event) (s : State)
    (hfood : 0 ≤ foodIndex ev s) (hbody : bodyIndex ev s < 0)
    (hlo : -2 ^ 63 ≤ s.score) (hhi : s.score < 2 ^ 63 - 1) :
    ∃ s', draw ev s = some s' ∧ s'.score = s.score + 1 := by
  obtain ⟨s', hs'⟩ := Option.isSome_iff_exists.mp (draw_isSome_of_eat ev s hfood)
  refine ⟨s', hs', ?_⟩
  obtain ⟨-, -, hsc, -⟩ := draw_fields ev s s' hs'
  rw [hsc, selfHit_of_miss _ _ (by rw [bodyIndex_eq]; exact hbody),
    (eatFood_of_hit (atHead ev s).1 (atHead ev s).2 hfood).2.1, (atHead_fields ev s).1]
  exact wrapInt_of_inRange _ (by omega) (by omega)

/-- Witness of C8 (amended): food just ahead of the head and the body elsewhere;
the score goes from 2 to 3. -/
theorem draw_score_succ_of_eat_witness :
    0 ≤ foodIndex evQuiet stEat ∧ bodyIndex evQuiet stEat < 0 ∧
      draw evQuiet stEat = some stEatAfter ∧
      ∃ s', draw evQuiet stEat = some s' ∧ s'.score = stEat.score + 1 :=
  ⟨by with_unfolding_all decide, by with_unfolding_all decide, by with_unfolding_all decide,
    draw_score_succ_of_eat evQuiet stEat (by with_unfolding_all decide)
      (by with_unfolding_all decide) (by with_unfolding_all decide)
      (by with_unfolding_all decide)⟩

/-- Counterexample to C9 as stated: with a food item and a body cell both under
the head rectangle and `score = max = 0`, the snake dies
(`snake.OverlapsRect >= 0`) and the max score after the frame is `1`, not the
max score before it. -/
theorem draw_eat_and_die_max_changes :
    0 ≤ bodyIndex evQuiet stBoth ∧
      draw evQuiet stBoth = some stBothAfter ∧
      stBothAfter.max ≠ stBoth.max := by
  refine ⟨?_, ?_, ?_⟩ <;> with_unfolding_all decide

/-- C9 (amended): if in a frame the head rectangle overlaps a non-sentinel body
cell, then the frame completes, and after it the direction is `Die` and the
score is 0; if moreover no food is eaten in that frame, the max score equals
the max score before it. In the scenario body `[(10,10),(20,10),(30,10)]`, cell
size 10, head moving Left from `(20,10)` at speed 10, body index 0 is hit. -/
theorem draw_dies_on_self_collision :
    (∀ (ev : Event) (s : State), 0 ≤ bodyIndex ev s →
      ∃ s', draw ev s = some s' ∧ s'.dir = Dir.Die ∧ s'.score = 0 ∧
        (foodIndex ev s < 0 → s'.max = s.max)) ∧
    (bodyIndex evQuiet stSelf = 0 ∧ draw evQuiet stSelf = some stSelfAfter ∧
      stSelfAfter.dir = Dir.Die ∧ stSelfAfter.score = 0 ∧ stSelfAfter.max = stSelf.max) := by
  constructor
  · intro ev s hbody
    obtain ⟨s', hs'⟩ := Option.isSome_iff_exists.mp (draw_isSome_of_selfHit ev s hbody)
    refine ⟨s', hs', ?_⟩
    obtain ⟨-, hmx, hsc, hdir⟩ := draw_fields ev s s' hs'
    have hit := selfHit_of_hit (eatFood (atHead ev s).1 (atHead ev s).2).1 (atHead ev s).2
      (by rw [bodyIndex_eq]; exact hbody)
    refine ⟨hdir.trans hit.1, hsc.trans hit.2, ?_⟩
    intro hfood
    rw [hmx, eatFood_of_miss (atHead ev s).1 (atHead ev s).2 hfood]
    exact (atHead_fields ev s).2.1
  · refine ⟨?_, ?_, ?_, ?_, ?_⟩ <;> with_unfolding_all decide

/-- Witness of C9 (amended): the scenario of the claim, run through the general
statement. -/
theorem draw_dies_on_self_collision_witness :
    0 ≤ bodyIndex evQuiet stSelf ∧
      ∃ s', draw evQuiet stSelf = some s' ∧ s'.dir = Dir.Die ∧ s'.score = 0 ∧
        (foodIndex evQuiet stSelf < 0 → s'.max = stSelf.max) :=
  ⟨by with_unfolding_all decide,
    draw_dies_on_self_collision.1 evQuiet stSelf (by with_unfolding_all decide)⟩

/-- C10: the max score never decreases: a frame started with a non-empty body
completes, and the max score after any completed frame is greater than or equal
to the max score before it. -/
theorem draw_max_monotone (ev : Event) (s : State) :
    (s.snake ≠ [] → (draw ev s).isSome = true) ∧
    ∀ s', draw ev s = some s' → s.max ≤ s'.max := by
  refine ⟨draw_isSome_of_snake_ne_nil ev s, ?_⟩
  intro s' h
  obtain ⟨-, hmx, -, -⟩ := draw_fields ev s s' h
  rw [hmx]
  have h1 := eatFood_max_le (atHead ev s).1 (atHead ev s).2
  rw [(atHead_fields ev s).2.1] at h1
  exact h1

/-- Witness of C10: eating raises the max score from 2 to 3, and dying in the
same frame as eating still leaves it raised. -/
theorem draw_max_monotone_witness :
    (draw evQuiet stEat = some stEatAfter ∧ stEat.max ≤ stEatAfter.max) ∧
      (draw evQuiet stBoth = some stBothAfter ∧ stBoth.max ≤ stBothAfter.max) :=
  ⟨⟨by with_unfolding_all decide,
      (draw_max_monotone evQuiet stEat).2 stEatAfter (by with_unfolding_all decide)⟩,
    ⟨by with_unfolding_all decide,
      (draw_max_monotone evQuiet stBoth).2 stBothAfter (by with_unfolding_all decide)⟩⟩

/-! ## The shifting loop and the body after a frame -/

/-- The shifting loop, run on the cells after an already shifted front `p`: every
remaining cell moves one slot to the front and the last cell is kept. -/
theorem shift_loop (rest : List Point) : ∀ (p : List Point) (c : Point),
    (List.range' (p.length + 1) rest.length).foldl
        (fun a i => a.set (i - 1) (a.getD i { X := 0, Y := 0 })) (p ++ c :: rest) =
      p ++ rest ++ [rest.getLastD c] := by
  induction rest with
  | nil =>
    intro p c
    simp
  | cons d rest ih =>
    intro p c
    have hget : (p ++ c :: d :: rest).getD (p.length + 1) { X := 0, Y := 0 } = d := by
      rw [List.getD_eq_getElem?_getD, List.getElem?_append_right (by omega)]
      simp
    have hset : (p ++ c :: d :: rest).set (p.length + 1 - 1) d = (p ++ [d]) ++ d :: rest := by
      simp [List.set_append]
    have hih := ih (p ++ [d]) d
    simp only [List.length_append, List.length_singleton] at hih
    simp only [List.length_cons, List.range'_succ, List.foldl_cons, hget, hset, hih]
    simp only [List.append_assoc, List.singleton_append, List.cons_append, List.nil_append,
      List.getLastD_cons]

/-- The shifting loop drops the first cell and repeats the last one. -/
theorem shift_cons (c : Point) (rest : List Point) :
    shift (c :: rest) = rest ++ [rest.getLastD c] := by
  have h := shift_loop rest [] c
  simpa [shift] using h

theorem shift_nil : shift [] = [] := rfl

/-- Overwriting the last cell of the shifted body with `cur`. -/
theorem shift_set_last (l : List Point) (cur : Point) (h : l ≠ []) :
    (shift l).set ((shift l).length - 1) cur = l.tail ++ [cur] := by
  cases l with
  | nil => exact absurd rfl h
  | cons c rest =>
    rw [shift_cons]
    simp [List.set_append]

/-- Speed and cell size after a completed frame. -/
theorem draw_speed_size (ev : Event) (s s' : State) (h : draw ev s = some s') :
    s'.speed = (keys ev s).speed ∧ s'.size = s.size := by
  unfold draw at h
  simp only at h
  obtain ⟨-, -, -, -, -, hsz, hsp⟩ := updateBody_fields _ _ _ h
  obtain ⟨-, -, -, -, s5, s6⟩ :=
    selfHit_fields (eatFood (move ev (keys ev s)).1 (move ev (keys ev s)).2).1
      (move ev (keys ev s)).2
  obtain ⟨-, -, -, e4, e5⟩ := eatFood_fields (move ev (keys ev s)).1 (move ev (keys ev s)).2
  obtain ⟨-, -, -, -, m5, -, m7⟩ := move_fields ev (keys ev s)
  simp only [makefood] at hsz hsp
  exact ⟨by rw [hsp, s6, e5, m7], by rw [hsz, s5, e4, m5, (keys_fields ev s).2.2.2.2]⟩

/-- The state handed to the body update has the body of the start of the
frame. -/
theorem preBody_snake (ev : Event) (s : State) :
    (makefood ev (selfHit (eatFood (atHead ev s).1 (atHead ev s).2).1 (atHead ev s).2)).snake =
      s.snake := by
  obtain ⟨-, -, s3, -, -, -⟩ :=
    selfHit_fields (eatFood (atHead ev s).1 (atHead ev s).2).1 (atHead ev s).2
  obtain ⟨-, -, e3, -, -⟩ := eatFood_fields (atHead ev s).1 (atHead ev s).2
  simp only [makefood]
  rw [s3, e3]
  exact (atHead_fields ev s).2.2.1

/-- The flag `eat` of a frame is set exactly when the food scan finds a cell. -/
theorem eat_flag (ev : Event) (s : State) :
    (eatFood (atHead ev s).1 (atHead ev s).2).2 = decide (0 ≤ foodIndex ev s) := by
  by_cases h : 0 ≤ foodIndex ev s
  · rw [(eatFood_of_hit (atHead ev s).1 (atHead ev s).2 h).1]
    simp [h]
  · rw [eatFood_of_miss (atHead ev s).1 (atHead ev s).2 (not_le.mp h)]
    simp [h]

/-- The body after a completed frame: the old body with the new head appended
when food was eaten; otherwise the shifted body, with the new head written
into its last cell unless the direction is `Die`. -/
theorem draw_snake (ev : Event) (s s' : State) (h : draw ev s = some s') :
    (0 ≤ foodIndex ev s → s'.snake = s.snake ++ [s'.cur]) ∧
    (foodIndex ev s < 0 → s'.dir ≠ Dir.Die →
      s.snake ≠ [] ∧ s'.snake = s.snake.tail ++ [s'.cur]) ∧
    (foodIndex ev s < 0 → s'.dir = Dir.Die → s'.snake = shift s.snake) := by
  obtain ⟨hcur, -, -, hdir⟩ := draw_fields ev s s' h
  have hsn := preBody_snake ev s
  have hflag := eat_flag ev s
  have h' : updateBody
      (makefood ev (selfHit (eatFood (atHead ev s).1 (atHead ev s).2).1 (atHead ev s).2))
      (eatFood (atHead ev s).1 (atHead ev s).2).2 = some s' := h
  have hc5 : (makefood ev
      (selfHit (eatFood (atHead ev s).1 (atHead ev s).2).1 (atHead ev s).2)).cur = s'.cur :=
    ((updateBody_fields _ _ _ h').1).symm
  have hd5 : (makefood ev
      (selfHit (eatFood (atHead ev s).1 (atHead ev s).2).1 (atHead ev s).2)).dir = s'.dir :=
    ((updateBody_fields _ _ _ h').2.2.2.1).symm
  rw [hflag] at h'
  unfold updateBody at h'
  simp only [hsn, hc5, hd5] at h'
  refine ⟨?_, ?_, ?_⟩
  · intro hf
    simp only [hf, decide_True, if_true, Option.some.injEq] at h'
    rw [← h']
  · intro hf hd
    have hf' : ¬(0 ≤ foodIndex ev s) := not_le.mpr hf
    simp only [hf', decide_False, Bool.false_eq_true, if_false, ne_eq, hd, not_false_eq_true,
      if_true] at h'
    by_cases hne : s.snake = []
    · rw [hne, shift_nil] at h'
      simp at h'
    · refine ⟨hne, ?_⟩
      have hlen : (shift s.snake).length ≠ 0 := by
        rw [shift_length]
        exact fun h0 => hne (List.length_eq_zero.mp h0)
      simp only [hlen, if_false, Option.some.injEq] at h'
      rw [← h']
      exact shift_set_last s.snake s'.cur hne
  · intro hf hd
    have hf' : ¬(0 ≤ foodIndex ev s) := not_le.mpr hf
    simp only [hf', decide_False, Bool.false_eq_true, if_false, ne_eq, hd, not_true_eq_false,
      if_false] at h'
    simp only [Option.some.injEq] at h'
    rw [← h']

/-! ## Direction after death -/

theorem keys_dir_of_no_arrow (ev : Event) (s : State)
    (hk : ev.Pressed = false ∨
      (ev.Name ≠ "↑" ∧ ev.Name ≠ "↓" ∧ ev.Name ≠ "←" ∧ ev.Name ≠ "→")) :
    (keys ev s).dir = s.dir := by
  unfold keys
  rcases hk with hp | ⟨h1, h2, h3, h4⟩
  · simp [hp]
  · simp only [h1, h2, h3, h4, if_false]
    split_ifs <;> rfl

theorem selfHit_dir_of_die (s : State) (head : Rect) (h : s.dir = Dir.Die) :
    (selfHit s head).dir = Dir.Die := by
  unfold selfHit
  split_ifs
  · rfl
  · exact h

/-- A frame from a dead snake in which no arrow key is pressed completes and
leaves the snake dead. -/
theorem draw_dir_die_of_no_arrow (ev : Event) (s : State)
    (hd : s.dir = Dir.Die)
    (hk : ev.Pressed = false ∨
      (ev.Name ≠ "↑" ∧ ev.Name ≠ "↓" ∧ ev.Name ≠ "←" ∧ ev.Name ≠ "→")) :
    ∃ s', draw ev s = some s' ∧ s'.dir = Dir.Die := by
  have h1 : (keys ev s).dir = Dir.Die := (keys_dir_of_no_arrow ev s hk).trans hd
  have h2 : (atHead ev s).1.dir = Dir.Die := ((move_fields ev (keys ev s)).2.2.2.2.2.1).trans h1
  have h3 : (eatFood (atHead ev s).1 (atHead ev s).2).1.dir = Dir.Die :=
    ((eatFood_fields (atHead ev s).1 (atHead ev s).2).2.1).trans h2
  have h4 := selfHit_dir_of_die _ (atHead ev s).2 h3
  have hsome : (draw ev s).isSome = true := by
    unfold draw
    simp only
    apply updateBody_isSome_of_die
    exact h4
  obtain ⟨s', hs'⟩ := Option.isSome_iff_exists.mp hsome
  exact ⟨s', hs', ((draw_fields ev s s' hs').2.2.2).trans h4⟩

/-- Counterexample to C11 as stated: from a dead snake, a frame with the Up
arrow pressed ends with direction `Up`. -/
theorem draw_arrow_revives :
    stDead.dir = Dir.Die ∧ draw (evKey "↑") stDead = some stDeadAfterUp ∧
      stDeadAfterUp.dir ≠ Dir.Die := by
  refine ⟨?_, ?_, ?_⟩ <;> with_unfolding_all decide

/-- C11 (amended): from a state whose direction is `Die`, every frame in which
no arrow key is pressed (no key at all, or a key other than the four arrows)
completes and ends with direction `Die`. -/
theorem draw_die_persists_without_arrow (ev : Event) (s : State)
    (hd : s.dir = Dir.Die)
    (hk : ev.Pressed = false ∨
      (ev.Name ≠ "↑" ∧ ev.Name ≠ "↓" ∧ ev.Name ≠ "←" ∧ ev.Name ≠ "→")) :
    ∃ s', draw ev s = some s' ∧ s'.dir = Dir.Die :=
  draw_dir_die_of_no_arrow ev s hd hk

/-- Witness of C11 (amended): a dead snake stays dead through a frame without
key. -/
theorem draw_die_persists_without_arrow_witness :
    stDead.dir = Dir.Die ∧ evQuiet.Pressed = false ∧
      ∃ s', draw evQuiet stDead = some s' ∧ s'.dir = Dir.Die :=
  ⟨by with_unfolding_all decide, by with_unfolding_all decide,
    draw_die_persists_without_arrow evQuiet stDead (by with_unfolding_all decide)
      (Or.inl (by with_unfolding_all decide))⟩

/-! ## Body list after a frame -/

/-- A completed frame in which no food is eaten keeps the body length. -/
theorem draw_length_of_no_eat (ev : Event) (s s' : State) (h : draw ev s = some s')
    (hf : foodIndex ev s < 0) : s'.snake.length = s.snake.length := by
  obtain ⟨-, halive, hdead⟩ := draw_snake ev s s' h
  by_cases hd : s'.dir = Dir.Die
  · rw [hdead hf hd, shift_length]
  · obtain ⟨hne, hsn⟩ := halive hf hd
    rw [hsn]
    cases hl : s.snake with
    | nil => exact absurd hl hne
    | cons c rest => simp

/-- Counterexample to C12 as stated: a dead snake, no key pressed, and a food
item whose square contains the origin, where the head rectangle keeps its zero
value: the food is eaten and the body grows from 1 to 2 cells. -/
theorem draw_dead_snake_grows :
    stDeadFood.dir = Dir.Die ∧ evQuiet.Pressed = false ∧
      draw evQuiet stDeadFood = some stDeadFoodAfter ∧
      stDeadFoodAfter.snake.length ≠ stDeadFood.snake.length := by
  refine ⟨?_, ?_, ?_, ?_⟩ <;> with_unfolding_all decide

/-- C12 (amended): a frame started with a non-empty body completes; the body
length after any completed frame is at least the length before it; and after
every completed frame in which no food is eaten, in particular one that starts
with direction `Die`, the length equals the length before. -/
theorem draw_body_length (ev : Event) (s : State) :
    (s.snake ≠ [] → (draw ev s).isSome = true) ∧
    ∀ s', draw ev s = some s' →
      s.snake.length ≤ s'.snake.length ∧
      (foodIndex ev s < 0 → s'.snake.length = s.snake.length) := by
  refine ⟨draw_isSome_of_snake_ne_nil ev s, ?_⟩
  intro s' h
  refine ⟨?_, draw_length_of_no_eat ev s s' h⟩
  by_cases hf : 0 ≤ foodIndex ev s
  · rw [(draw_snake ev s s' h).1 hf]
    simp
  · exact le_of_eq (draw_length_of_no_eat ev s s' h (not_le.mp hf)).symm

/-- Witness of C12 (amended): the dead three-cell snake keeps its length, and
the snake that eats grows. -/
theorem draw_body_length_witness :
    (draw evQuiet stDead = some stDeadAfter ∧ foodIndex evQuiet stDead < 0 ∧
      stDeadAfter.snake.length = stDead.snake.length) ∧
    (draw evQuiet stEat = some stEatAfter ∧
      stEat.snake.length ≤ stEatAfter.snake.length) :=
  ⟨⟨by with_unfolding_all decide, by with_unfolding_all decide,
      ((draw_body_length evQuiet stDead).2 stDeadAfter (by with_unfolding_all decide)).2
        (by with_unfolding_all decide)⟩,
    ⟨by with_unfolding_all decide,
      ((draw_body_length evQuiet stEat).2 stEatAfter (by with_unfolding_all decide)).1⟩⟩

/-- Counterexample to C16 as stated: a dead three-cell snake, no key pressed;
after the frame the body is `[(30,10),(40,10),(40,10)]`, not the body
`[(20,10),(30,10),(40,10)]` it had before. -/
theorem draw_dead_body_shifts :
    stDead.dir = Dir.Die ∧ evQuiet.Pressed = false ∧
      draw evQuiet stDead = some stDeadAfter ∧ stDeadAfter.snake ≠ stDead.snake := by
  refine ⟨?_, ?_, ?_, ?_⟩ <;> with_unfolding_all decide

/-- C16 (amended): from a state whose direction is `Die`, a frame with no key
pressed in which no food is eaten completes; the body after it has the same
length and is the body before it with its first element dropped and its last
element repeated (the result of the shifting loop), so a body of at most one
cell is unchanged. -/
theorem draw_dead_body (ev : Event) (s : State)
    (hd : s.dir = Dir.Die) (hk : ev.Pressed = false) (hf : foodIndex ev s < 0) :
    ∃ s', draw ev s = some s' ∧ s'.snake = shift s.snake ∧
      s'.snake = s.snake.tail ++ s.snake.getLast?.toList ∧
      s'.snake.length = s.snake.length ∧
      (s.snake.length ≤ 1 → s'.snake = s.snake) := by
  obtain ⟨s', hs', hdie⟩ := draw_dir_die_of_no_arrow ev s hd (Or.inl hk)
  have hsn : s'.snake = shift s.snake := (draw_snake ev s s' hs').2.2 hf hdie
  refine ⟨s', hs', hsn, ?_, ?_, ?_⟩
  · rw [hsn]
    cases s.snake with
    | nil => rfl
    | cons c rest =>
      rw [shift_cons]
      cases rest with
      | nil => rfl
      | cons d r =>
        obtain ⟨x, hx⟩ : ∃ x, (d :: r).getLast? = some x :=
          ⟨_, List.getLast?_eq_getLast _ (List.cons_ne_nil d r)⟩
        have h1 : (c :: d :: r).getLast? = some x := by
          rw [List.getLast?_cons_cons]
          exact hx
        rw [h1, List.getLastD_eq_getLast?, hx]
        rfl
  · rw [hsn, shift_length]
  · intro hlen
    rw [hsn]
    cases hl : s.snake with
    | nil => rfl
    | cons c rest =>
      cases rest with
      | nil => rfl
      | cons d r =>
        rw [hl] at hlen
        simp at hlen

/-- Witness of C16 (amended): the dead three-cell snake of the counterexample. -/
theorem draw_dead_body_witness :
    stDead.dir = Dir.Die ∧ evQuiet.Pressed = false ∧ foodIndex evQuiet stDead < 0 ∧
      ∃ s', draw evQuiet stDead = some s' ∧ s'.snake = shift stDead.snake ∧
        s'.snake = stDead.snake.tail ++ stDead.snake.getLast?.toList ∧
        s'.snake.length = stDead.snake.length ∧
        (stDead.snake.length ≤ 1 → s'.snake = stDead.snake) :=
  ⟨by with_unfolding_all decide, by with_unfolding_all decide, by with_unfolding_all decide,
    draw_dead_body evQuiet stDead (by with_unfolding_all decide)
      (by with_unfolding_all decide) (by with_unfolding_all decide)⟩

/-- C17: a frame started with a non-empty body completes, and if it ends with a
direction other than `Die` then: if food was eaten, the new body is the old body
with the new head position appended (length plus one); otherwise the new body
has the same length and is the old body with its first element dropped and the
new head position appended. -/
theorem draw_body_alive (ev : Event) (s : State) (hne : s.snake ≠ []) :
    ∃ s', draw ev s = some s' ∧
      (s'.dir ≠ Dir.Die →
        (0 ≤ foodIndex ev s →
          s'.snake = s.snake ++ [s'.cur] ∧ s'.snake.length = s.snake.length + 1) ∧
        (foodIndex ev s < 0 →
          s'.snake = s.snake.tail ++ [s'.cur] ∧ s'.snake.length = s.snake.length)) := by
  obtain ⟨s', hs'⟩ := Option.isSome_iff_exists.mp (draw_isSome_of_snake_ne_nil ev s hne)
  refine ⟨s', hs', ?_⟩
  intro hd
  obtain ⟨heat, halive, -⟩ := draw_snake ev s s' hs'
  constructor
  · intro hf
    refine ⟨heat hf, ?_⟩
    rw [heat hf]
    simp
  · intro hf
    refine ⟨(halive hf hd).2, ?_⟩
    exact draw_length_of_no_eat ev s s' hs' hf

/-- Witness of C17: a frame that eats appends the new head `(15,50)`, and a frame
that does not eat replaces the one-cell body by the new head `(20,50)`. -/
theorem draw_body_alive_witness :
    (stEat.snake ≠ [] ∧ draw evQuiet stEat = some stEatAfter ∧
      stEatAfter.snake = stEat.snake ++ [stEatAfter.cur]) ∧
    (stScenario.snake ≠ [] ∧ draw evQuiet stScenario = some stScenario1 ∧
      stScenario1.snake = stScenario.snake.tail ++ [stScenario1.cur]) ∧
    ∃ s', draw evQuiet stEat = some s' ∧
      (s'.dir ≠ Dir.Die →
        (0 ≤ foodIndex evQuiet stEat →
          s'.snake = stEat.snake ++ [s'.cur] ∧ s'.snake.length = stEat.snake.length + 1) ∧
        (foodIndex evQuiet stEat < 0 →
          s'.snake = stEat.snake.tail ++ [s'.cur] ∧
            s'.snake.length = stEat.snake.length)) :=
  ⟨by with_unfolding_all decide, by with_unfolding_all decide,
    draw_body_alive evQuiet stEat (by with_unfolding_all decide)⟩

/-! ## Speed -/

/-- What the key handling does to the speed. -/
theorem keys_speed_cases (ev : Event) (s : State) :
    (keys ev s).speed = s.speed ∨ (1 < s.speed ∧ (keys ev s).speed = s.speed - 1) ∨
      (keys ev s).speed = s.speed + 1 := by
  unfold keys
  split_ifs with h1 h2 h3 h4 h5 h6 h7 h8 h9
  all_goals first
    | exact Or.inl rfl
    | exact Or.inr (Or.inl ⟨h7, rfl⟩)
    | exact Or.inr (Or.inr rfl)

/-- Counterexample to C13 as stated: at speed `3/2`, which is at least 1, a
frame with `-` pressed leaves the speed at `1/2`. -/
theorem draw_speed_below_one :
    1 ≤ stSlow.speed ∧ draw (evKey "-") stSlow = some stSlowAfter ∧
      ¬(1 ≤ stSlowAfter.speed) := by
  refine ⟨?_, ?_, ?_⟩ <;> with_unfolding_all decide

/-- C13 (amended): from a speed of at least 1, a frame started with a non-empty
body completes, and after any completed frame, whatever the key, the speed is
still positive; if moreover the speed before the frame is a whole number, the
speed after it is again a whole number and at least 1. -/
theorem draw_speed_floor (ev : Event) (s : State) (h : 1 ≤ s.speed) :
    (s.snake ≠ [] → (draw ev s).isSome = true) ∧
    ∀ s', draw ev s = some s' →
      0 < s'.speed ∧
      ((∃ n : ℤ, s.speed = (n : ℚ)) → 1 ≤ s'.speed ∧ ∃ m : ℤ, s'.speed = (m : ℚ)) := by
  refine ⟨draw_isSome_of_snake_ne_nil ev s, ?_⟩
  intro s' hs'
  rw [(draw_speed_size ev s s' hs').1]
  refine ⟨keys_speed_pos ev s (by linarith), ?_⟩
  rintro ⟨n, hn⟩
  rcases keys_speed_cases ev s with hsame | ⟨hgt, hdec⟩ | hinc
  · rw [hsame]
    exact ⟨h, n, hn⟩
  · rw [hdec, hn]
    rw [hn] at hgt
    have hn1 : (1 : ℤ) < n := by exact_mod_cast hgt
    have hn2 : (1 : ℤ) ≤ n - 1 := by omega
    refine ⟨?_, n - 1, by push_cast; rfl⟩
    have : ((1 : ℤ) : ℚ) ≤ ((n - 1 : ℤ) : ℚ) := by exact_mod_cast hn2
    push_cast at this
    exact this
  · rw [hinc]
    refine ⟨by linarith, n + 1, ?_⟩
    rw [hn]
    push_cast
    rfl

/-- Witness of C13 (amended): at the whole-number speed 10 a frame with `-`
pressed ends at speed 9, positive and at least 1. -/
theorem draw_speed_floor_witness :
    1 ≤ stScenario.speed ∧ stScenario.speed = ((10 : ℤ) : ℚ) ∧
      draw (evKey "-") stScenario = some stScenarioMinus ∧
      0 < stScenarioMinus.speed ∧ 1 ≤ stScenarioMinus.speed :=
  ⟨by with_unfolding_all decide, by norm_num [stScenario], by with_unfolding_all decide,
    ((draw_speed_floor (evKey "-") stScenario (by with_unfolding_all decide)).2
      stScenarioMinus (by with_unfolding_all decide)).1,
    (((draw_speed_floor (evKey "-") stScenario (by with_unfolding_all decide)).2
      stScenarioMinus (by with_unfolding_all decide)).2
      ⟨10, by norm_num [stScenario]⟩).1⟩

/-! ## Run-time faults of a frame -/

/-- A frame faults exactly when the body is empty, no food is eaten and the
direction after the key handling is not `Die`: the write to
`snake[len(snake)-1]` is then out of range. -/
theorem draw_eq_none_iff (ev : Event) (s : State) :
    draw ev s = none ↔
      s.snake = [] ∧ foodIndex ev s < 0 ∧ (keys ev s).dir ≠ Dir.Die := by
  have hsn := preBody_snake ev s
  have hflag := eat_flag ev s
  have hshape : draw ev s = updateBody
      (makefood ev (selfHit (eatFood (atHead ev s).1 (atHead ev s).2).1 (atHead ev s).2))
      (eatFood (atHead ev s).1 (atHead ev s).2).2 := rfl
  have hdir5 : (makefood ev
      (selfHit (eatFood (atHead ev s).1 (atHead ev s).2).1 (atHead ev s).2)).dir =
      (selfHit (eatFood (atHead ev s).1 (atHead ev s).2).1 (atHead ev s).2).dir := rfl
  have hdir3 : (eatFood (atHead ev s).1 (atHead ev s).2).1.dir = (keys ev s).dir :=
    ((eatFood_fields (atHead ev s).1 (atHead ev s).2).2.1).trans
      (move_fields ev (keys ev s)).2.2.2.2.2.1
  constructor
  · intro hnone
    by_cases hne : s.snake = []
    · have hbody : bodyIndex ev s < 0 := by
        unfold bodyIndex
        rw [(atHead_fields ev s).2.2.1, hne]
        simp [List.OverlapsRect, scanRect_nil]
      have hself := selfHit_of_miss (eatFood (atHead ev s).1 (atHead ev s).2).1 (atHead ev s).2
        (by rw [bodyIndex_eq]; exact hbody)
      by_cases hf : 0 ≤ foodIndex ev s
      · have := draw_isSome_of_eat ev s hf
        rw [hnone] at this
        exact absurd this (by decide)
      · refine ⟨hne, not_le.mp hf, ?_⟩
        intro hdie
        have hd5 : (makefood ev (selfHit (eatFood (atHead ev s).1 (atHead ev s).2).1
            (atHead ev s).2)).dir = Dir.Die := by
          rw [hdir5, hself, hdir3]
          exact hdie
        have := updateBody_isSome_of_die _ (eatFood (atHead ev s).1 (atHead ev s).2).2 hd5
        rw [← hshape, hnone] at this
        exact absurd this (by decide)
    · have := draw_isSome_of_snake_ne_nil ev s hne
      rw [hnone] at this
      exact absurd this (by decide)
  · rintro ⟨hne, hf, hdir⟩
    have hbody : bodyIndex ev s < 0 := by
      unfold bodyIndex
      rw [(atHead_fields ev s).2.2.1, hne]
      simp [List.OverlapsRect, scanRect_nil]
    have hself := selfHit_of_miss (eatFood (atHead ev s).1 (atHead ev s).2).1 (atHead ev s).2
      (by rw [bodyIndex_eq]; exact hbody)
    have hd5 : (makefood ev (selfHit (eatFood (atHead ev s).1 (atHead ev s).2).1
        (atHead ev s).2)).dir ≠ Dir.Die := by
      rw [hdir5, hself, hdir3]
      exact hdir
    have hf' : ¬(0 ≤ foodIndex ev s) := not_le.mpr hf
    rw [hshape, hflag]
    unfold updateBody
    simp only [hsn, hne, shift_nil, hf', decide_False, Bool.false_eq_true, if_false, ne_eq, hd5,
      not_false_eq_true, if_true, List.length_nil]

/-- C14 (failing input): with the initial snake length configured as 0, `setup`
succeeds and leaves an empty body, and the first frame faults on the write to
`snake[len(snake)-1]`. -/
theorem setup_zero_length_draw_faults :
    setup 1800 0 10 (initial 50 5) = some stStartEmpty ∧ stStartEmpty.snake = [] ∧
      draw evStart stStartEmpty = none := by
  refine ⟨?_, rfl, ?_⟩
  · have hw : Int.tdiv 1800 2 = 900 := by decide
    have hn : ¬((0 : Int) < 0 ∨ (10 : Int) < 0) := by decide
    have ht : Int.toNat 10 = 10 := rfl
    simp only [setup, hn, if_false, hw, initial, stStartEmpty, ht]
    norm_num
  · rw [draw_eq_none_iff]
    refine ⟨rfl, ?_, ?_⟩ <;> with_unfolding_all decide

/-! ## The head rectangle -/

/-- The head rectangle built by the movement phase, for each direction, in
terms of the head position after the move. -/
theorem move_head (ev : Event) (s : State) :
    (s.dir = Dir.Right → (move ev s).2 =
      { Min := { X := (move ev s).1.cur.X + s.size / 2 - 1 / 2,
                 Y := (move ev s).1.cur.Y - s.size / 2 }
        Max := { X := (move ev s).1.cur.X + s.size / 2 + 1 / 2,
                 Y := (move ev s).1.cur.Y + s.size / 2 } }) ∧
    (s.dir = Dir.Left → (move ev s).2 =
      { Min := { X := (move ev s).1.cur.X - s.size / 2 - 1 / 2,
                 Y := (move ev s).1.cur.Y - s.size / 2 }
        Max := { X := (move ev s).1.cur.X - s.size / 2 + 1 / 2,
                 Y := (move ev s).1.cur.Y + s.size / 2 } }) ∧
    (s.dir = Dir.Down → (move ev s).2 =
      { Min := { X := (move ev s).1.cur.X - s.size / 2,
                 Y := (move ev s).1.cur.Y + s.size / 2 - 1 / 2 }
        Max := { X := (move ev s).1.cur.X + s.size / 2,
                 Y := (move ev s).1.cur.Y + s.size / 2 + 1 / 2 } }) ∧
    (s.dir = Dir.Up → (move ev s).2 =
      { Min := { X := (move ev s).1.cur.X - s.size / 2,
                 Y := (move ev s).1.cur.Y - s.size / 2 - 1 / 2 }
        Max := { X := (move ev s).1.cur.X + s.size / 2,
                 Y := (move ev s).1.cur.Y - s.size / 2 + 1 / 2 } }) := by
  refine ⟨?_, ?_, ?_, ?_⟩ <;> intro hd <;> unfold move <;> rw [hd] <;>
    simp only [Point.toRect, Rect.Move, Rect.mk.injEq, Point.mk.injEq] <;>
    refine ⟨⟨?_, ?_⟩, ⟨?_, ?_⟩⟩ <;> ring

/-- The head position after a move without wraparound. -/
theorem move_cur_no_wrap (ev : Event) (s : State) :
    (s.dir = Dir.Right → s.cur.X + s.speed ≤ ev.Width →
      (move ev s).1.cur = { X := s.cur.X + s.speed, Y := s.cur.Y }) ∧
    (s.dir = Dir.Left → 0 ≤ s.cur.X - s.speed →
      (move ev s).1.cur = { X := s.cur.X - s.speed, Y := s.cur.Y }) ∧
    (s.dir = Dir.Down → s.cur.Y + s.speed ≤ ev.Height →
      (move ev s).1.cur = { X := s.cur.X, Y := s.cur.Y + s.speed }) ∧
    (s.dir = Dir.Up → 0 ≤ s.cur.Y - s.speed →
      (move ev s).1.cur = { X := s.cur.X, Y := s.cur.Y - s.speed }) := by
  refine ⟨?_, ?_, ?_, ?_⟩ <;> intro hd hb <;> unfold move <;> rw [hd]
  · simp only [gt_iff_lt, not_lt.mpr hb, if_false]
  · simp only [not_lt.mpr hb, if_false]
  · simp only [gt_iff_lt, not_lt.mpr hb, if_false]
  · simp only [not_lt.mpr hb, if_false]

/-- Counterexample to C19 as stated: moving Right from `(10,50)` to `(20,50)`
with cell size 10 and no wraparound, the head rectangle has `Min.X = 49/2` and
`Max.X = 51/2`, not `10` and `20`, and it contains neither the old nor the new
head position. -/
theorem head_rect_not_swept :
    (keys evQuiet stScenario).dir = Dir.Right ∧ stScenario.cur = ⟨10, 50⟩ ∧
      (atHead evQuiet stScenario).1.cur = ⟨20, 50⟩ ∧
      (atHead evQuiet stScenario).2 = ⟨⟨49 / 2, 45⟩, ⟨51 / 2, 55⟩⟩ ∧
      (atHead evQuiet stScenario).2.Min.X ≠ 10 ∧
      (atHead evQuiet stScenario).2.Max.X ≠ 20 ∧
      (atHead evQuiet stScenario).2.Contains ⟨10, 50⟩ = false ∧
      (atHead evQuiet stScenario).2.Contains ⟨20, 50⟩ = false := by
  refine ⟨?_, ?_, ?_, ?_, ?_, ?_, ?_, ?_⟩ <;> with_unfolding_all decide

/-- C19 (amended): in every frame in a movement direction, with or without
wraparound, the head rectangle used by the collision tests is a strip one unit
long along the axis of travel, centred on the leading edge of the head cell at
the position after the move, and one cell size thick in the perpendicular axis
(moving Right to `(x1, y)`: `Min.X = x1 + size/2 - 1/2`,
`Max.X = x1 + size/2 + 1/2`, `Min.Y = y - size/2`, `Max.Y = y + size/2`); and
without wraparound the position after the move is the position before it
advanced by the speed. -/
theorem head_rect_leading_edge (ev : Event) (s : State) :
    ((keys ev s).dir = Dir.Right →
      (atHead ev s).2 =
        { Min := { X := (atHead ev s).1.cur.X + s.size / 2 - 1 / 2,
                   Y := (atHead ev s).1.cur.Y - s.size / 2 }
          Max := { X := (atHead ev s).1.cur.X + s.size / 2 + 1 / 2,
                   Y := (atHead ev s).1.cur.Y + s.size / 2 } } ∧
      (s.cur.X + (keys ev s).speed ≤ ev.Width →
        (atHead ev s).1.cur = { X := s.cur.X + (keys ev s).speed, Y := s.cur.Y })) ∧
    ((keys ev s).dir = Dir.Left →
      (atHead ev s).2 =
        { Min := { X := (atHead ev s).1.cur.X - s.size / 2 - 1 / 2,
                   Y := (atHead ev s).1.cur.Y - s.size / 2 }
          Max := { X := (atHead ev s).1.cur.X - s.size / 2 + 1 / 2,
                   Y := (atHead ev s).1.cur.Y + s.size / 2 } } ∧
      (0 ≤ s.cur.X - (keys ev s).speed →
        (atHead ev s).1.cur = { X := s.cur.X - (keys ev s).speed, Y := s.cur.Y })) ∧
    ((keys ev s).dir = Dir.Down →
      (atHead ev s).2 =
        { Min := { X := (atHead ev s).1.cur.X - s.size / 2,
                   Y := (atHead ev s).1.cur.Y + s.size / 2 - 1 / 2 }
          Max := { X := (atHead ev s).1.cur.X + s.size / 2,
                   Y := (atHead ev s).1.cur.Y + s.size / 2 + 1 / 2 } } ∧
      (s.cur.Y + (keys ev s).speed ≤ ev.Height →
        (atHead ev s).1.cur = { X := s.cur.X, Y := s.cur.Y + (keys ev s).speed })) ∧
    ((keys ev s).dir = Dir.Up →
      (atHead ev s).2 =
        { Min := { X := (atHead ev s).1.cur.X - s.size / 2,
                   Y := (atHead ev s).1.cur.Y - s.size / 2 - 1 / 2 }
          Max := { X := (atHead ev s).1.cur.X + s.size / 2,
                   Y := (atHead ev s).1.cur.Y - s.size / 2 + 1 / 2 } } ∧
      (0 ≤ s.cur.Y - (keys ev s).speed →
        (atHead ev s).1.cur = { X := s.cur.X, Y := s.cur.Y - (keys ev s).speed })) := by
  obtain ⟨kc, -, -, -, ksz⟩ := keys_fields ev s
  obtain ⟨hR, hL, hD, hU⟩ := move_head ev (keys ev s)
  obtain ⟨cR, cL, cD, cU⟩ := move_cur_no_wrap ev (keys ev s)
  rw [ksz] at hR hL hD hU
  rw [kc] at cR cL cD cU
  exact ⟨fun h => ⟨hR h, cR h⟩, fun h => ⟨hL h, cL h⟩, fun h => ⟨hD h, cD h⟩,
    fun h => ⟨hU h, cU h⟩⟩

/-- Witness of C19 (amended): the frame of the scenario moving Right from
`(10,50)` at speed 10. -/
theorem head_rect_leading_edge_witness :
    (keys evQuiet stScenario).dir = Dir.Right ∧
      (atHead evQuiet stScenario).2 =
        { Min := { X := (atHead evQuiet stScenario).1.cur.X + stScenario.size / 2 - 1 / 2,
                   Y := (atHead evQuiet stScenario).1.cur.Y - stScenario.size / 2 }
          Max := { X := (atHead evQuiet stScenario).1.cur.X + stScenario.size / 2 + 1 / 2,
                   Y := (atHead evQuiet stScenario).1.cur.Y + stScenario.size / 2 } } :=
  ⟨by with_unfolding_all decide,
    ((head_rect_leading_edge evQuiet stScenario).1 (by with_unfolding_all decide)).1⟩

/-! ## Food placement leaves placed food alone -/

theorem makefoodStep_of_no_sentinel (ev : Event) (size : ℚ) (snake : List Point)
    (acc : List Point × ℕ) (i : ℕ) (h : ∀ c ∈ acc.1, ¬(c.X = 0 ∧ c.Y = 0)) :
    makefoodStep ev size snake acc i = acc := by
  unfold makefoodStep
  cases hc : acc.1[i]? with
  | none => rfl
  | some c =>
    have hmem : c ∈ acc.1 := List.getElem?_mem hc
    simp only [h c hmem, if_false]

theorem foldl_makefoodStep_of_no_sentinel (ev : Event) (size : ℚ) (snake : List Point)
    (is : List ℕ) (acc : List Point × ℕ) (h : ∀ c ∈ acc.1, ¬(c.X = 0 ∧ c.Y = 0)) :
    is.foldl (makefoodStep ev size snake) acc = acc := by
  induction is with
  | nil => rfl
  | cons i is ih =>
    rw [List.foldl_cons, makefoodStep_of_no_sentinel ev size snake acc i h]
    exact ih

/-- With no empty slot in the food list, `makefood` changes nothing. -/
theorem makefood_of_no_sentinel (ev : Event) (s : State)
    (h : ∀ c ∈ s.food, ¬(c.X = 0 ∧ c.Y = 0)) : makefood ev s = s := by
  unfold makefood
  rw [foldl_makefoodStep_of_no_sentinel ev s.size s.snake _ (s.food, 0) h]

/-! ## The scenario of the specification -/

/-- The key handling and the movement read only the key state and window size
of the event, which `evRand r` shares with `evQuiet`. -/
theorem atHead_evRand (r : ℕ → ℚ) (s : State) : atHead (evRand r) s = atHead evQuiet s := rfl

theorem foodIndex_evRand (r : ℕ → ℚ) (s : State) :
    foodIndex (evRand r) s = foodIndex evQuiet s := rfl

/-- A frame that leaves no empty food slot behind does not consult the random
draws. -/
theorem draw_evRand (r : ℕ → ℚ) (s : State)
    (h : ∀ c ∈ (selfHit (eatFood (atHead evQuiet s).1 (atHead evQuiet s).2).1
      (atHead evQuiet s).2).food, ¬(c.X = 0 ∧ c.Y = 0)) :
    draw (evRand r) s = draw evQuiet s := by
  have h1 : draw (evRand r) s = updateBody
      (makefood (evRand r) (selfHit (eatFood (atHead evQuiet s).1 (atHead evQuiet s).2).1
        (atHead evQuiet s).2))
      (eatFood (atHead evQuiet s).1 (atHead evQuiet s).2).2 := rfl
  have h2 : draw evQuiet s = updateBody
      (makefood evQuiet (selfHit (eatFood (atHead evQuiet s).1 (atHead evQuiet s).2).1
        (atHead evQuiet s).2))
      (eatFood (atHead evQuiet s).1 (atHead evQuiet s).2).2 := rfl
  rw [h1, h2, makefood_of_no_sentinel (evRand r) _ h, makefood_of_no_sentinel evQuiet _ h]

theorem keys_evRand (r : ℕ → ℚ) (s : State) : keys (evRand r) s = s := rfl

/-- Counterexample to C20 as stated: the food at `(50,50)` is hit on the third
frame, with the head at `(40,50)`; after three frames the score is already 1
and the body already has two cells. -/
theorem scenario_eaten_before_fourth_tick :
    run [evQuiet, evQuiet] stScenario = some stScenario2 ∧
      foodIndex evQuiet stScenario2 = 0 ∧
      run [evQuiet, evQuiet, evQuiet] stScenario = some stScenario3 ∧
      stScenario3.cur = ⟨40, 50⟩ ∧ stScenario3.score = 1 ∧
      stScenario3.snake.length = 2 := by
  refine ⟨?_, ?_, ?_, ?_, ?_, ?_⟩ <;> with_unfolding_all decide

/-- C20 (amended): in the scenario, whatever the random draws, the first two
frames eat nothing and leave score 0 and a one-cell body; the third frame, which
moves the head to `(40,50)`, hits the food at `(50,50)` (slot 0 is marked
eaten), takes the score from 0 to 1 and the body from one cell to two; and after
exactly four frames the head is at `(50,50)`. -/
theorem scenario_eaten_on_third_tick (r1 r2 r3 r4 : ℕ → ℚ) :
    draw (evRand r1) stScenario = some stScenario1 ∧
    foodIndex (evRand r1) stScenario < 0 ∧
    draw (evRand r2) stScenario1 = some stScenario2 ∧
    foodIndex (evRand r2) stScenario1 < 0 ∧
    stScenario2.score = 0 ∧ stScenario2.snake.length = 1 ∧
    foodIndex (evRand r3) stScenario2 = 0 ∧
    (eatFood (atHead (evRand r3) stScenario2).1 (atHead (evRand r3) stScenario2).2).1.food =
      [⟨0, 0⟩] ∧
    ∃ s3 s4, draw (evRand r3) stScenario2 = some s3 ∧ s3.cur = ⟨40, 50⟩ ∧
      s3.score = 1 ∧ s3.snake = [⟨30, 50⟩, ⟨40, 50⟩] ∧
      draw (evRand r4) s3 = some s4 ∧ s4.cur = ⟨50, 50⟩ ∧
      run [evRand r1, evRand r2, evRand r3, evRand r4] stScenario = some s4 := by
  have t1 : draw (evRand r1) stScenario = some stScenario1 := by
    rw [draw_evRand r1 stScenario (by with_unfolding_all decide)]
    with_unfolding_all decide
  have t2 : draw (evRand r2) stScenario1 = some stScenario2 := by
    rw [draw_evRand r2 stScenario1 (by with_unfolding_all decide)]
    with_unfolding_all decide
  have f3 : foodIndex (evRand r3) stScenario2 = 0 := by
    rw [foodIndex_evRand]
    with_unfolding_all decide
  refine ⟨t1, ?_, t2, ?_, rfl, rfl, f3, ?_, ?_⟩
  · rw [foodIndex_evRand]
    with_unfolding_all decide
  · rw [foodIndex_evRand]
    with_unfolding_all decide
  · rw [atHead_evRand]
    with_unfolding_all decide
  · obtain ⟨s3, h3⟩ := Option.isSome_iff_exists.mp
      (draw_isSome_of_eat (evRand r3) stScenario2 (le_of_eq f3.symm))
    obtain ⟨c3, -, sc3, d3⟩ := draw_fields (evRand r3) stScenario2 s3 h3
    rw [atHead_evRand] at c3 sc3 d3
    have hc3 : s3.cur = ⟨40, 50⟩ := by
      rw [c3]
      with_unfolding_all decide
    have hsc3 : s3.score = 1 := by
      rw [sc3]
      with_unfolding_all decide
    have hd3 : s3.dir = Dir.Right := by
      rw [d3]
      with_unfolding_all decide
    have hsp3 : s3.speed = 10 := by
      rw [(draw_speed_size (evRand r3) stScenario2 s3 h3).1, keys_evRand]
      rfl
    have hsn3 : s3.snake = [⟨30, 50⟩, ⟨40, 50⟩] := by
      rw [(draw_snake (evRand r3) stScenario2 s3 h3).1 (le_of_eq f3.symm), hc3]
      rfl
    have hne3 : s3.snake ≠ [] := by
      rw [hsn3]
      exact List.cons_ne_nil _ _
    obtain ⟨s4, h4⟩ := Option.isSome_iff_exists.mp
      (draw_isSome_of_snake_ne_nil (evRand r4) s3 hne3)
    have hc4 : s4.cur = ⟨50, 50⟩ := by
      rw [(draw_fields (evRand r4) s3 s4 h4).1]
      have hmv := (move_cur_no_wrap (evRand r4) s3).1 hd3
        (by rw [hc3, hsp3]; show (40 : ℚ) + 10 ≤ 100; norm_num)
      have hat : atHead (evRand r4) s3 = move (evRand r4) s3 := rfl
      rw [hat, hmv, hc3, hsp3]
      norm_num
    refine ⟨s3, s4, h3, hc3, hsc3, hsn3, h4, hc4, ?_⟩
    simp only [run, t1, t2, h3, h4, Option.some_bind]

/-! ## The retry loop of the food placement -/

theorem cand_zero (ev : Event) (size : ℚ) (n : ℕ) :
    cand ev size n 0 =
      { X := size + ev.rand n * (ev.Width - size - size)
        Y := size + ev.rand (n + 1) * (ev.Height - size - size) } := rfl

theorem cand_shift (ev : Event) (size : ℚ) (n j : ℕ) :
    cand ev size (n + 2) j = cand ev size n (j + 1) := by
  have h1 : n + 2 + 2 * j = n + 2 * (j + 1) := by omega
  unfold cand
  rw [h1]

theorem tryPlace_succ_free (ev : Event) (size : ℚ) (food snake : List Point) (fuel n : ℕ)
    (c0 : Point) (h : Free food snake size (cand ev size n 0)) :
    tryPlace ev size food snake (fuel + 1) n c0 = (cand ev size n 0, n + 2) := by
  rw [cand_zero] at h
  unfold Free at h
  rw [tryPlace]
  simp only [h, and_self, if_true]
  rfl

theorem tryPlace_succ_taken (ev : Event) (size : ℚ) (food snake : List Point) (fuel n : ℕ)
    (c0 : Point) (h : ¬Free food snake size (cand ev size n 0)) :
    tryPlace ev size food snake (fuel + 1) n c0 =
      tryPlace ev size food snake fuel (n + 2) (cand ev size n 0) := by
  rw [cand_zero] at h
  unfold Free at h
  rw [tryPlace]
  simp only [h, if_false]
  rfl

/-- The retry loop returns the first free candidate, if there is one among its
`fuel` attempts. -/
theorem tryPlace_first_free (ev : Event) (size : ℚ) (food snake : List Point) :
    ∀ (fuel n k : ℕ) (c0 : Point), k < fuel →
      Free food snake size (cand ev size n k) →
      (∀ j, j < k → ¬Free food snake size (cand ev size n j)) →
      tryPlace ev size food snake fuel n c0 = (cand ev size n k, n + 2 * (k + 1)) := by
  intro fuel
  induction fuel with
  | zero =>
    intro n k c0 hk
    omega
  | succ fuel ih =>
    intro n k c0 hk hfree hmin
    cases k with
    | zero => exact tryPlace_succ_free ev size food snake fuel n c0 hfree
    | succ k =>
      rw [tryPlace_succ_taken ev size food snake fuel n c0 (hmin 0 (Nat.succ_pos k)),
        ih (n + 2) k _ (by omega) (by rw [cand_shift]; exact hfree)
          (fun j hj => by rw [cand_shift]; exact hmin (j + 1) (by omega)),
        cand_shift]
      congr 1
      omega

/-- With no free candidate among its attempts, the retry loop returns the last
one. -/
theorem tryPlace_none_free (ev : Event) (size : ℚ) (food snake : List Point) :
    ∀ (fuel n : ℕ) (c0 : Point),
      (∀ j, j < fuel + 1 → ¬Free food snake size (cand ev size n j)) →
      tryPlace ev size food snake (fuel + 1) n c0 =
        (cand ev size n fuel, n + 2 * (fuel + 1)) := by
  intro fuel
  induction fuel with
  | zero =>
    intro n c0 hall
    rw [tryPlace_succ_taken ev size food snake 0 n c0 (hall 0 (by omega))]
    rfl
  | succ fuel ih =>
    intro n c0 hall
    rw [tryPlace_succ_taken ev size food snake (fuel + 1) n c0 (hall 0 (by omega)),
      ih (n + 2) _ (fun j hj => by rw [cand_shift]; exact hall (j + 1) (by omega)),
      cand_shift]
    congr 1
    omega

/-! ## The outer loop of the food placement -/

theorem makefoodStep_getElem?_ne (ev : Event) (size : ℚ) (snake : List Point)
    (acc : List Point × ℕ) (i j : ℕ) (h : i ≠ j) :
    (makefoodStep ev size snake acc i).1[j]? = acc.1[j]? := by
  unfold makefoodStep
  cases hc : acc.1[i]? with
  | none => rfl
  | some c =>
    simp only
    split_ifs
    · exact List.getElem?_set_ne h
    · rfl

theorem makefoodStep_placed (ev : Event) (size : ℚ) (snake : List Point)
    (acc : List Point × ℕ) (i : ℕ) (c : Point) (hc : acc.1[i]? = some c)
    (h : ¬(c.X = 0 ∧ c.Y = 0)) : makefoodStep ev size snake acc i = acc := by
  unfold makefoodStep
  simp only [hc, h, if_false]

theorem makefoodStep_empty (ev : Event) (size : ℚ) (snake : List Point)
    (acc : List Point × ℕ) (i : ℕ) (c : Point) (hc : acc.1[i]? = some c)
    (h : c.X = 0 ∧ c.Y = 0) :
    (makefoodStep ev size snake acc i).1[i]? =
      some (tryPlace ev size acc.1 snake 1000 acc.2 c).1 := by
  obtain ⟨hlt, -⟩ := List.getElem?_eq_some.mp hc
  unfold makefoodStep
  simp only [hc, h, and_self, if_true]
  exact List.getElem?_set_self hlt

/-- Iterations for other slots leave slot `j` alone. -/
theorem foldl_makefoodStep_getElem? (ev : Event) (size : ℚ) (snake : List Point)
    (is : List ℕ) (j : ℕ) (hj : j ∉ is) :
    ∀ acc : List Point × ℕ,
      (is.foldl (makefoodStep ev size snake) acc).1[j]? = acc.1[j]? := by
  induction is with
  | nil =>
    intro acc
    rfl
  | cons i is ih =>
    intro acc
    have hne : i ≠ j := fun h => hj (by rw [h]; exact List.mem_cons_self j is)
    have hrest : j ∉ is := fun h => hj (List.mem_cons_of_mem i h)
    rw [List.foldl_cons, ih hrest, makefoodStep_getElem?_ne ev size snake acc i j hne]

/-- The outer loop, split at slot `i`: the iterations before `i`, the iteration
for `i`, and the iterations after it. -/
theorem makefood_food_split (ev : Event) (s : State) (i : ℕ) (hi : i < s.food.length) :
    (makefood ev s).food =
      ((List.range' (i + 1) (s.food.length - (i + 1))).foldl
        (makefoodStep ev s.size s.snake)
        (makefoodStep ev s.size s.snake (foodBefore ev s i) i)).1 := by
  have hsplit : List.range s.food.length =
      (List.range i ++ [i]) ++ List.range' (i + 1) (s.food.length - (i + 1)) := by
    rw [← List.range_succ, List.range_eq_range', List.range_eq_range']
    have h := List.range'_append_1 0 (i + 1) (s.food.length - (i + 1))
    rw [Nat.zero_add] at h
    rw [h]
    congr 1
    omega
  unfold makefood foodBefore
  simp only
  rw [hsplit, List.foldl_append, List.foldl_append]
  rfl

/-- When the outer loop reaches slot `i`, the slots from `i` on are still those
of the food list at entry. -/
theorem foodBefore_later (ev : Event) (s : State) (i j : ℕ) (h : i ≤ j) :
    (foodBefore ev s i).1[j]? = s.food[j]? := by
  unfold foodBefore
  exact foldl_makefoodStep_getElem? ev s.size s.snake (List.range i) j
    (fun hmem => absurd (List.mem_range.mp hmem) (by omega)) (s.food, 0)

/-- When the outer loop reaches slot `i`, the slots before `i` already hold
their final content. -/
theorem foodBefore_earlier (ev : Event) (s : State) (i j : ℕ) (h : j < i) :
    (foodBefore ev s i).1[j]? = (makefood ev s).food[j]? := by
  by_cases hi : i < s.food.length
  · rw [makefood_food_split ev s i hi,
      foldl_makefoodStep_getElem? ev s.size s.snake _ j
        (fun hmem => absurd (List.mem_range'_1.mp hmem).1 (by omega)),
      makefoodStep_getElem?_ne ev s.size s.snake _ i j (by omega)]
  · have hsplit : List.range i =
        List.range s.food.length ++ List.range' s.food.length (i - s.food.length) := by
      rw [List.range_eq_range', List.range_eq_range']
      have h := List.range'_append_1 0 s.food.length (i - s.food.length)
      rw [Nat.zero_add] at h
      rw [h]
      congr 1
      omega
    unfold foodBefore makefood
    simp only
    rw [hsplit, List.foldl_append]
    by_cases hj : j < s.food.length
    · exact foldl_makefoodStep_getElem? ev s.size s.snake _ j
        (fun hmem => absurd (List.mem_range'_1.mp hmem).1 (by omega)) _
    · have hlen : ∀ (is : List ℕ) (acc : List Point × ℕ),
          (is.foldl (makefoodStep ev s.size s.snake) acc).1.length = acc.1.length := by
        intro is
        induction is with
        | nil =>
          intro acc
          rfl
        | cons k is ih =>
          intro acc
          rw [List.foldl_cons, ih]
          unfold makefoodStep
          cases acc.1[k]? with
          | none => rfl
          | some c =>
            simp only
            split_ifs
            · exact List.length_set _ _ _
            · rfl
      rw [List.getElem?_eq_none (by rw [hlen, hlen]; exact not_lt.mp hj),
        List.getElem?_eq_none (by rw [hlen]; exact not_lt.mp hj)]

/-- What `makefood` leaves in slot `i`: the result of the iteration for `i`. -/
theorem makefood_getElem? (ev : Event) (s : State) (i : ℕ) (hi : i < s.food.length) :
    (makefood ev s).food[i]? =
      (makefoodStep ev s.size s.snake (foodBefore ev s i) i).1[i]? := by
  rw [makefood_food_split ev s i hi]
  exact foldl_makefoodStep_getElem? ev s.size s.snake _ i
    (fun hmem => absurd (List.mem_range'_1.mp hmem).1 (by omega)) _

/-- C18: with the random draws given, `makefood` leaves a placed food item
alone, and into an empty `(0,0)` slot `i` it stores the first of the 1000
candidates whose square overlaps neither a placed food cell nor a placed body
cell, or the 1000th candidate when none qualifies; so the stored position
overlaps a food or body cell only if all 1000 candidates did. The food list the
candidates are tested against is the one of the moment the loop reaches slot
`i`: final content in the slots before `i`, the content at entry from `i` on. -/
theorem makefood_slot (ev : Event) (s : State) (i : ℕ) (c : Point)
    (hi : s.food[i]? = some c) :
    (¬(c.X = 0 ∧ c.Y = 0) → (makefood ev s).food[i]? = some c) ∧
    ((c.X = 0 ∧ c.Y = 0) →
      (∀ k, k < 1000 →
        Free (foodBefore ev s i).1 s.snake s.size (cand ev s.size (foodBefore ev s i).2 k) →
        (∀ j, j < k →
          ¬Free (foodBefore ev s i).1 s.snake s.size
            (cand ev s.size (foodBefore ev s i).2 j)) →
        (makefood ev s).food[i]? = some (cand ev s.size (foodBefore ev s i).2 k)) ∧
      ((∀ k, k < 1000 →
          ¬Free (foodBefore ev s i).1 s.snake s.size
            (cand ev s.size (foodBefore ev s i).2 k)) →
        (makefood ev s).food[i]? = some (cand ev s.size (foodBefore ev s i).2 999)) ∧
      (∀ p, (makefood ev s).food[i]? = some p →
        ¬Free (foodBefore ev s i).1 s.snake s.size p →
        ∀ k, k < 1000 →
          ¬Free (foodBefore ev s i).1 s.snake s.size
            (cand ev s.size (foodBefore ev s i).2 k))) ∧
    (∀ j, i ≤ j → (foodBefore ev s i).1[j]? = s.food[j]?) ∧
    (∀ j, j < i → (foodBefore ev s i).1[j]? = (makefood ev s).food[j]?) := by
  obtain ⟨hlt, -⟩ := List.getElem?_eq_some.mp hi
  have hF : (foodBefore ev s i).1[i]? = some c :=
    (foodBefore_later ev s i i (le_refl i)).trans hi
  have hfirst : (c.X = 0 ∧ c.Y = 0) → ∀ k, k < 1000 →
      Free (foodBefore ev s i).1 s.snake s.size (cand ev s.size (foodBefore ev s i).2 k) →
      (∀ j, j < k →
        ¬Free (foodBefore ev s i).1 s.snake s.size
          (cand ev s.size (foodBefore ev s i).2 j)) →
      (makefood ev s).food[i]? = some (cand ev s.size (foodBefore ev s i).2 k) := by
    intro h0 k hk hfree hmin
    rw [makefood_getElem? ev s i hlt,
      makefoodStep_empty ev s.size s.snake (foodBefore ev s i) i c hF h0,
      tryPlace_first_free ev s.size (foodBefore ev s i).1 s.snake 1000 (foodBefore ev s i).2 k c
        hk hfree hmin]
  refine ⟨?_, ?_, fun j hj => foodBefore_later ev s i j hj,
    fun j hj => foodBefore_earlier ev s i j hj⟩
  · intro hc
    rw [makefood_getElem? ev s i hlt,
      makefoodStep_placed ev s.size s.snake (foodBefore ev s i) i c hF hc]
    exact hF
  · intro h0
    refine ⟨hfirst h0, ?_, ?_⟩
    · intro hall
      rw [makefood_getElem? ev s i hlt,
        makefoodStep_empty ev s.size s.snake (foodBefore ev s i) i c hF h0,
        tryPlace_none_free ev s.size (foodBefore ev s i).1 s.snake 999 (foodBefore ev s i).2 c
          hall]
    · intro p hp hnf k hk hfree
      have hex : ∃ m, m < 1000 ∧
          Free (foodBefore ev s i).1 s.snake s.size
            (cand ev s.size (foodBefore ev s i).2 m) := ⟨k, hk, hfree⟩
      obtain ⟨hm, hmfree⟩ := Nat.find_spec hex
      have hmin : ∀ j, j < Nat.find hex →
          ¬Free (foodBefore ev s i).1 s.snake s.size
            (cand ev s.size (foodBefore ev s i).2 j) := by
        intro j hj hjfree
        exact Nat.find_min hex hj ⟨lt_trans hj hm, hjfree⟩
      have hstored := hfirst h0 (Nat.find hex) hm hmfree hmin
      rw [hp, Option.some.injEq] at hstored
      rw [hstored] at hnf
      exact hnf hmfree

/-- Witness of C18: the empty middle slot of `stRefill`; the first candidate
`(50,50)` lies on the body, the second one `(30,70)` is free and is stored. -/
theorem makefood_slot_witness :
    stRefill.food[1]? = some ⟨0, 0⟩ ∧
      cand evRefill stRefill.size (foodBefore evRefill stRefill 1).2 0 = ⟨50, 50⟩ ∧
      cand evRefill stRefill.size (foodBefore evRefill stRefill 1).2 1 = ⟨30, 70⟩ ∧
      (makefood evRefill stRefill).food = [⟨20, 20⟩, ⟨30, 70⟩, ⟨80, 80⟩] ∧
      (makefood evRefill stRefill).food[1]? =
        some (cand evRefill stRefill.size (foodBefore evRefill stRefill 1).2 1) :=
  ⟨by with_unfolding_all decide, by with_unfolding_all decide, by with_unfolding_all decide,
    by with_unfolding_all decide,
    ((makefood_slot evRefill stRefill 1 ⟨0, 0⟩ (by with_unfolding_all decide)).2.1
      ⟨rfl, rfl⟩).1 1 (by decide) (by with_unfolding_all decide)
      (by with_unfolding_all decide)⟩

end SnakeGame

namespace P5

/-! ## Button sets -/

/-- C15: `b.Contain(buttons)` is true exactly when every button (bit) of
`buttons` is also in `b`; every set contains itself and the empty set. -/
theorem Buttons.Contain_iff_bits (b buttons : Buttons) :
    (Buttons.Contain b buttons = true ↔
      ∀ i : ℕ, Nat.testBit buttons i = true → Nat.testBit b i = true) ∧
    Buttons.Contain b b = true ∧ Buttons.Contain b 0 = true := by
  refine ⟨?_, ?_, ?_⟩
  · simp only [Buttons.Contain, beq_iff_eq]
    constructor
    · intro h i hi
      rw [← h, Nat.testBit_and] at hi
      simp only [Bool.and_eq_true] at hi
      exact hi.1
    · intro h
      apply Nat.eq_of_testBit_eq
      intro i
      rw [Nat.testBit_and]
      cases hb : Nat.testBit buttons i
      · simp
      · simp [h i hb]
  · simp [Buttons.Contain]
  · simp [Buttons.Contain]

end P5
